import Mathlib

/-!
# PickMyBite: the recommendation pipeline of the /pick route

A shallow embedding of src/pickmybite-backend/index.js (the /pick handler and the
helpers it uses) and of the two type lists of src/pickmybite-app/App.js.

Modelling conventions.
* JavaScript numbers that come from JSON (ratings, minRating, coordinates) and the draws
  of Math.random() are exact rationals; a draw is a rational in [0, 1).
* An absent (undefined) property is none. The operator (x || d) falls back to d when x
  is absent or falsy (the empty string, the number 0).
* Arrays are lists. Array.prototype.sort is the stable sort that ECMAScript prescribes.
* An await that rejects inside the try block jumps to the catch block of the handler.
-/

namespace PickMyBite

/-! ## Data model -/

/-- The googleMapsLinks object of a provider place. -/
structure GoogleMapsLinks where
  directionsUri : Option String
  reviewsUri : Option String
  photosUri : Option String
deriving DecidableEq

/-- The location object of a provider place. -/
structure LatLng where
  latitude : ℚ
  longitude : ℚ
deriving DecidableEq

/-- A raw provider place, restricted to the properties that the /pick handler reads.
displayNameText is the value of (place.displayName?.text). The location is always
present (the handler reads place.location.latitude unguarded and the data model of the
specification lists it as mandatory). -/
structure Place where
  displayNameText : Option String
  formattedAddress : Option String
  rating : Option ℚ
  userRatingCount : Option ℕ
  location : LatLng
  businessStatus : Option String
  priceLevel : Option String
  types : Option (List String)
  photos : Option (List String)
  googleMapsLinks : Option GoogleMapsLinks
  nationalPhoneNumber : Option String
  internationalPhoneNumber : Option String
deriving DecidableEq

/-- The JavaScript expression (x || d) for an optional string x: the empty string and
undefined are falsy. -/
def strOr (x : Option String) (d : String) : String :=
  match x with
  | some s => if s = "" then d else s
  | none => d

/-- The JavaScript expression (x || d) for an optional number x: 0 and undefined are
falsy. -/
def numOr (x : Option ℚ) (d : ℚ) : ℚ :=
  match x with
  | some q => if q = 0 then d else q
  | none => d

/-- The constant priceLevelMap, as the function priceLevelMap.get: a key that is not in
the map yields undefined. -/
def priceLevelMap (key : String) : Option String :=
  if key = "PRICE_LEVEL_INEXPENSIVE" then some "$"
  else if key = "PRICE_LEVEL_MODERATE" then some "$$"
  else if key = "PRICE_LEVEL_EXPENSIVE" then some "$$$"
  else if key = "PRICE_LEVEL_VERY_EXPENSIVE" then some "$$$$"
  else none

/-- The call budget.includes(v) on an array of strings, where v may be undefined:
undefined is equal to no string. -/
def includes (budget : List String) (v : Option String) : Bool :=
  match v with
  | some s => decide (s ∈ budget)
  | none => false

/-! ## Filter Stage (index.js, lines 374-382) -/

/-- The callback passed to places.filter in the /pick handler. -/
def passesFilter (budget : List String) (minRating : ℚ) (place : Place) : Bool :=
  let priceLevel := strOr place.priceLevel "$$"
  let priceMatch := budget.length == 0 || includes budget (priceLevelMap priceLevel)
  let isOperational := decide (place.businessStatus = some "OPERATIONAL")
  let ratingMatch := decide (numOr place.rating 0 ≥ minRating)
  priceMatch && ratingMatch && isOperational

/-- The value filtered_places of the /pick handler. -/
def filtered_places (budget : List String) (minRating : ℚ) (places : List Place) :
    List Place :=
  places.filter (passesFilter budget minRating)

/-- A bare place: every optional property absent, located at the given point. -/
def barePlace (lat lng : ℚ) : Place :=
  { displayNameText := none, formattedAddress := none, rating := none,
    userRatingCount := none, location := ⟨lat, lng⟩, businessStatus := none,
    priceLevel := none, types := none, photos := none, googleMapsLinks := none,
    nationalPhoneNumber := none, internationalPhoneNumber := none }

/-- An operational place with a name, a rating and an optional price level. -/
def mkPlace (name : String) (rating : ℚ) (price : Option String) : Place :=
  { barePlace 0 0 with
    displayNameText := some name, rating := some rating,
    businessStatus := some "OPERATIONAL", priceLevel := price }

/-! ## Ranking Stage (index.js, lines 384-410) -/

/-- The name used by the comparator and by the response: (displayName?.text || 'Unknown'). -/
def placeName (p : Place) : String :=
  strOr p.displayNameText "Unknown"

/-- The value preferredCuisinesSet (new Set(cuisines)), as the list of its distinct
members. -/
def preferredCuisinesSet (cuisines : List String) : List String :=
  cuisines.dedup

/-- The values a_matches and b_matches of the comparator: 0 unless the set of preferred
cuisines is non-empty, in which case the number of entries of (place.types || []) that
are in the set. -/
def matchCount (cuisines : List String) (p : Place) : ℕ :=
  if (preferredCuisinesSet cuisines).length > 0 then
    ((p.types.getD []).filter (fun t => decide (t ∈ preferredCuisinesSet cuisines))).length
  else 0

/-- The comparator passed to filtered_places.sort; visitedNames is the set of visited
restaurant names, as a list. -/
def comparator (visitedNames cuisines : List String) (a b : Place) : ℤ :=
  let a_visited := decide (placeName a ∈ visitedNames)
  let b_visited := decide (placeName b ∈ visitedNames)
  if a_visited ≠ b_visited then
    (if a_visited then 1 else -1)
  else
    let a_matches := matchCount cuisines a
    let b_matches := matchCount cuisines b
    if a_matches ≠ b_matches then (b_matches : ℤ) - (a_matches : ℤ)
    else 0

/-- One step of the stable sort: a, which stood before every element of the sorted list
l, is moved to the right past the elements that the comparator puts strictly before it. -/
def insertSorted {α : Type} (cmp : α → α → ℤ) (a : α) : List α → List α
  | [] => [a]
  | b :: l => if cmp a b ≤ 0 then a :: b :: l else b :: insertSorted cmp a l

/-- Array.prototype.sort with a comparator. It is a built-in of the language, not code of
the repository: ECMAScript requires the sort to be stable, which for a consistent
comparator determines the result; it is given here as a stable insertion sort. -/
def arraySort {α : Type} (cmp : α → α → ℤ) : List α → List α
  | [] => []
  | a :: l => insertSorted cmp a (arraySort cmp l)

/-- The value sorted_places of the /pick handler. -/
def sorted_places (visitedNames cuisines : List String) (filtered : List Place) :
    List Place :=
  arraySort (comparator visitedNames cuisines) filtered

/-! ## Random source, getRandomIntInclusive and shuffleArray (index.js, lines 31-50) -/

/-- One result of Math.random(): a number in [0, 1). -/
structure Draw where
  val : ℚ
  nonneg : 0 ≤ val
  lt_one : val < 1

/-- The draw 0. -/
def Draw.zero : Draw := ⟨0, le_refl 0, by norm_num⟩

/-- The draw with the given value (the draw 0 when the value is not in [0, 1)). -/
def Draw.ofRat (q : ℚ) : Draw :=
  if h : 0 ≤ q ∧ q < 1 then ⟨q, h.1, h.2⟩ else Draw.zero

/-- The random source whose successive results are the entries of l, followed by
zeros. -/
def drawsOf (l : List ℚ) (n : ℕ) : Draw :=
  Draw.ofRat (l.getD n 0)

/-- The function getRandomIntInclusive on integer bounds (Math.ceil and Math.floor leave
them unchanged), r being the result of its call of Math.random(). The product and the sum
are exact here; getRandomIntInclusiveWith is the same function with both rounded. -/
def getRandomIntInclusive (r : Draw) (min max : ℤ) : ℤ :=
  ⌊r.val * ((max - min + 1 : ℤ) : ℚ) + (min : ℚ)⌋

/-- The value randomIndex of one round of shuffleArray. -/
def randomIndex (r : Draw) (currentIndex : ℕ) : ℕ :=
  (⌊r.val * (currentIndex : ℚ)⌋).toNat

/-- The destructuring swap of shuffleArray, of the entries at currentIndex and
randomIndex. Both indices are inside the array wherever shuffleArray calls it; outside,
the array is returned unchanged. -/
def swapEntries {α : Type} (array : List α) (currentIndex randomIndex : ℕ) : List α :=
  match array[currentIndex]?, array[randomIndex]? with
  | some atCurrent, some atRandom =>
    (array.set currentIndex atRandom).set randomIndex atCurrent
  | _, _ => array

/-- The while loop of shuffleArray: currentIndex counts down to 0; rand n is the result
of the n-th call of Math.random() of the request and k the number of calls made so far. -/
def shuffleLoop {α : Type} (rand : ℕ → Draw) : ℕ → ℕ → List α → List α
  | 0, _, array => array
  | currentIndex + 1, k, array =>
    shuffleLoop rand currentIndex (k + 1)
      (swapEntries array currentIndex (randomIndex (rand k) (currentIndex + 1)))

/-- The function shuffleArray. -/
def shuffleArray {α : Type} (rand : ℕ → Draw) (k : ℕ) (array : List α) : List α :=
  shuffleLoop rand array.length k array

/-! ## Diversification Sampler (index.js, lines 413-426) -/

/-- The value topTwo of the /pick handler, from sorted_places. -/
def topTwo {α : Type} (rand : ℕ → Draw) (k : ℕ) (sorted : List α) : List α :=
  let top_candidates := sorted.take 10
  let top_candidates :=
    if top_candidates.length > 2 then shuffleArray rand k top_candidates
    else top_candidates
  top_candidates.take 2

/-! ## Type catalogs (index.js, lines 59-67; App.js, lines 64-69) -/

/-- The constant TYPES of the backend. -/
def TYPES : List String :=
  ["afghani_restaurant", "african_restaurant", "american_restaurant", "brazilian_restaurant",
   "chinese_restaurant", "french_restaurant", "greek_restaurant", "indian_restaurant",
   "indonesian_restaurant", "italian_restaurant", "japanese_restaurant", "korean_restaurant",
   "lebanese_restaurant", "mediterranean_restaurant", "mexican_restaurant",
   "middle_eastern_restaurant", "spanish_restaurant", "thai_restaurant", "turkish_restaurant",
   "vietnamese_restaurant", "bagel_shop", "bakery", "barbecue_restaurant",
   "breakfast_restaurant", "brunch_restaurant", "buffet_restaurant", "cafe", "confectionery",
   "deli", "dessert_shop", "diner", "donut_shop", "fast_food_restaurant",
   "fine_dining_restaurant", "food_court", "hamburger_restaurant", "ice_cream_shop",
   "juice_shop", "pizza_restaurant", "ramen_restaurant", "sandwich_shop",
   "seafood_restaurant", "steak_house", "sushi_restaurant", "vegan_restaurant",
   "vegetarian_restaurant"]

/-- The constant DIVERSE_SETS of the backend. -/
def DIVERSE_SETS : List (List String) :=
  [["italian_restaurant", "chinese_restaurant", "mexican_restaurant", "indian_restaurant"],
   ["japanese_restaurant", "french_restaurant", "thai_restaurant", "mediterranean_restaurant"],
   ["american_restaurant", "vietnamese_restaurant", "greek_restaurant", "korean_restaurant"]]

/-- The constant REGIONS of the client (App.js). -/
def App.REGIONS : List String :=
  ["afghani_restaurant", "african_restaurant", "american_restaurant", "brazilian_restaurant",
   "chinese_restaurant", "french_restaurant", "greek_restaurant", "indian_restaurant",
   "indonesian_restaurant", "italian_restaurant", "japanese_restaurant", "korean_restaurant",
   "lebanese_restaurant", "mediterranean_restaurant", "mexican_restaurant",
   "middle_eastern_restaurant", "spanish_restaurant", "thai_restaurant", "turkish_restaurant",
   "vietnamese_restaurant"]

/-- The constant TYPES of the client (App.js). -/
def App.TYPES : List String :=
  ["bagel_shop", "bakery", "barbecue_restaurant", "breakfast_restaurant", "brunch_restaurant",
   "buffet_restaurant", "cafe", "confectionery", "deli", "dessert_shop", "diner",
   "donut_shop", "fast_food_restaurant", "fine_dining_restaurant", "food_court",
   "hamburger_restaurant", "ice_cream_shop", "juice_shop", "pizza_restaurant",
   "ramen_restaurant", "sandwich_shop", "seafood_restaurant", "steak_house",
   "sushi_restaurant", "vegan_restaurant", "vegetarian_restaurant"]

/-- The JavaScript expression array[i] for an integer i: undefined outside the array. -/
def arrayAt {α : Type} (array : List α) (i : ℤ) : Option α :=
  if i < 0 then none else array[i.toNat]?

/-! ## Default Type Selector (index.js, lines 269-305) -/

/-- The value held by the variable num_visits: the number 0 it is initialised with, or
what (await pool.query('SELECT get_visit_count($1)', ...)) returns, which is the Result
object of the query (its single row carries the count). -/
inductive NumVisits where
  | number (n : ℤ)
  | queryResult (count : ℤ)
deriving DecidableEq

/-- ToNumber on the value of num_visits; none stands for NaN, the number that a plain
object converts to. -/
def NumVisits.toNumber : NumVisits → Option ℚ
  | .number n => some (n : ℚ)
  | .queryResult _ => none

/-- The comparison (num_visits > c); every comparison with NaN is false. -/
def NumVisits.gt (v : NumVisits) (c : ℚ) : Bool :=
  match v.toNumber with
  | some n => decide (n > c)
  | none => false

/-- The comparison (num_visits < c); every comparison with NaN is false. -/
def NumVisits.lt (v : NumVisits) (c : ℚ) : Bool :=
  match v.toNumber with
  | some n => decide (n < c)
  | none => false

/-- The value empty_choice of the /pick handler together with the number of calls of
Math.random() made to compute it; rand n is the result of the n-th call. The value is an
array whose entries may be undefined (none), or undefined itself. -/
def empty_choice (rand : ℕ → Draw) (minRating : ℚ) (distance : Option ℤ)
    (num_visits : NumVisits) : Option (List (Option String)) × ℕ :=
  if minRating > 47 / 10 ∨ distance = some 500 then
    (some [some "restaurant"], 0)
  else if num_visits.gt 5 && num_visits.lt 20 then
    ((arrayAt DIVERSE_SETS (getRandomIntInclusive (rand 0) 0 2)).map (List.map some), 1)
  else
    (some [arrayAt TYPES (getRandomIntInclusive (rand 0) 0 23),
           arrayAt TYPES (getRandomIntInclusive (rand 1) 24 46)], 2)

/-! ## The /pick handler (index.js, lines 263-452) -/

/-- The function roundCoord; Math.round(x) is the integer floor(x + 1/2). -/
def roundCoord (coord precision : ℚ) : ℚ :=
  (⌊coord / precision + 1 / 2⌋ : ℚ) * precision

/-- The object req.body.preferences: cuisines and budget are arrays of strings, distance
and minRating are numbers that may be absent. -/
structure Preferences where
  cuisines : List String
  budget : List String
  distance : Option ℤ
  minRating : Option ℚ

/-- The object req.body.location. -/
structure Location where
  lat : ℚ
  lng : ℚ
deriving DecidableEq

/-- The object req.body. -/
structure Body where
  preferences : Option Preferences
  location : Option Location

/-- The four parameters of the SELECT and of the INSERT on place_cache; typesKey is
JSON.stringify(types), kept as the value it encodes. -/
structure CacheKey where
  latRound : ℚ
  lngRound : ℚ
  radius : ℤ
  typesKey : Option (List (Option String))
deriving DecidableEq

/-- The object requestBody sent to places:searchNearby. -/
structure RequestBody where
  includedTypes : Option (List (Option String))
  maxResultCount : ℕ
  latitude : ℚ
  longitude : ℚ
  radius : ℤ
  rankPreference : String
deriving DecidableEq

/-- What the provider answered: the HTTP status of the response and, of the parsed JSON
body, the properties error and places. -/
structure ProviderResponse where
  status : ℕ
  error : Option String
  places : Option (List Place)

/-- The collaborators of one request. An Except.error is a rejected promise.
* userId: the result of getUserIdFromToken(req);
* visitCount, visitHistory: the two queries on the visit history;
* cacheSelect: the SELECT on place_cache, giving the response column of the newest
  matching row, if there is one;
* searchNearby: fetch followed by response.json(); it rejects when the transport fails
  or the body is not JSON, and resolves for every HTTP status;
* cacheInsert: the INSERT into place_cache;
* rand n: the result of the n-th call of Math.random(). -/
structure World where
  userId : Option ℕ
  visitCount : ℕ → Except String ℤ
  visitHistory : ℕ → Except String (List String)
  cacheSelect : CacheKey → Except String (Option (List Place))
  searchNearby : RequestBody → Except String ProviderResponse
  cacheInsert : CacheKey → List Place → Except String Unit
  rand : ℕ → Draw

/-- A call made to a collaborator. -/
inductive Effect where
  | visitCountQuery (userId : ℕ)
  | visitHistoryQuery (userId : ℕ)
  | cacheSelect (key : CacheKey)
  | searchNearby (body : RequestBody)
  | cacheInsert (key : CacheKey) (places : List Place)
deriving DecidableEq

/-- The rating of a restaurant in the response: (place.rating || 'N/A'). -/
inductive RatingField where
  | value (q : ℚ)
  | notAvailable
deriving DecidableEq

/-- One entry of the restaurants array of the response. -/
structure Restaurant where
  name : String
  address : String
  rating : RatingField
  userRatingCount : ℕ
  location : Location
  types : List String
  photos : List String
  priceLevel : String
  directionsLink : Option String
  reviewsLink : Option String
  photosLink : Option String
  phone : Option String
deriving DecidableEq

/-- The callback of topTwo.map in the response. -/
def toRestaurant (place : Place) : Restaurant :=
  { name := strOr place.displayNameText "Unknown"
    address := strOr place.formattedAddress "No address provided"
    rating := match place.rating with
      | some q => if q = 0 then .notAvailable else .value q
      | none => .notAvailable
    userRatingCount := place.userRatingCount.getD 0
    location := ⟨place.location.latitude, place.location.longitude⟩
    types := place.types.getD []
    photos := place.photos.getD []
    priceLevel := strOr (place.priceLevel.bind priceLevelMap) "N/A"
    directionsLink := place.googleMapsLinks.bind (fun l => l.directionsUri)
    reviewsLink := place.googleMapsLinks.bind (fun l => l.reviewsUri)
    photosLink := place.googleMapsLinks.bind (fun l => l.photosUri)
    phone :=
      match place.nationalPhoneNumber with
      | some s => if s = "" then place.internationalPhoneNumber.filter (fun t => t ≠ "")
                  else some s
      | none => place.internationalPhoneNumber.filter (fun t => t ≠ "") }

/-- The JSON body of a response. -/
inductive ResponseBody where
  | restaurants (rs : List Restaurant)
  | error (message : String)
deriving DecidableEq

/-- A response sent by the handler. -/
structure Response where
  status : ℕ
  body : ResponseBody
deriving DecidableEq

/-- The outcome of one request: the response sent (none when the promise of the handler
rejected before any response was sent) and the calls made, in order. -/
structure Run where
  response : Option Response
  effects : List Effect

/-- The response of the catch block of the /pick handler. -/
def failedToPick : Response :=
  ⟨500, .error "Failed to pick a restaurant."⟩

/-- Lines 369-446: from places to the response; k is the number of calls of Math.random()
made so far. -/
def respond (rand : ℕ → Draw) (k : ℕ) (visitedNames cuisines budget : List String)
    (minRating : ℚ) (places : List Place) : Response :=
  if places.length = 0 then
    ⟨404, .error "No matching restaurants found nearby"⟩
  else
    let filtered := filtered_places budget minRating places
    let sorted := sorted_places visitedNames cuisines filtered
    ⟨200, .restaurants ((topTwo rand k sorted).map toRestaurant)⟩

/-- Lines 269-288: the visit history of the user. The result is visitedNames and
num_visits (none when the query of the visit count rejected: it is made outside every
try block, so no response is sent) and the calls made. A userId that is absent or falsy
skips both queries; a failing query of the names leaves visitedNames empty. -/
def visitHistoryPhase (w : World) : Option (List String × NumVisits) × List Effect :=
  match w.userId with
  | some userId =>
    if userId = 0 then (some ([], .number 0), [])
    else
      match w.visitCount userId with
      | .error _ => (none, [.visitCountQuery userId])
      | .ok count =>
        let visitedNames :=
          match w.visitHistory userId with
          | .ok names => names
          | .error _ => []
        (some (visitedNames, .queryResult count),
          [.visitCountQuery userId, .visitHistoryQuery userId])
  | none => (some ([], .number 0), [])

/-- The value radius: (Number(distance) || 3000). -/
def radiusOf (preferences : Preferences) : ℤ :=
  match preferences.distance with
  | some d => if d = 0 then 3000 else d
  | none => 3000

/-- The value types (line 305) together with the number of calls of Math.random() made
so far. -/
def typesOf (rand : ℕ → Draw) (preferences : Preferences) (num_visits : NumVisits) :
    Option (List (Option String)) × ℕ :=
  let choice :=
    empty_choice rand (preferences.minRating.getD (7 / 2)) preferences.distance num_visits
  (if preferences.cuisines.length > 0 then some (preferences.cuisines.map some) else choice.1,
    choice.2)

/-- The parameters of the two statements on place_cache. -/
def cacheKeyOf (location : Location) (radius : ℤ) (types : Option (List (Option String))) :
    CacheKey :=
  ⟨roundCoord location.lat (1 / 1000), roundCoord location.lng (1 / 1000), radius, types⟩

/-- The value requestBody (lines 326-339). -/
def requestBodyOf (location : Location) (radius : ℤ)
    (types : Option (List (Option String))) : RequestBody :=
  ⟨types, 20, location.lat, location.lng, radius, "POPULARITY"⟩

/-- Lines 311-367: the value places (none when an await rejected, which leads to the
catch block) and the calls made. -/
def obtainPlaces (w : World) (key : CacheKey) (requestBody : RequestBody) :
    Option (List Place) × List Effect :=
  match w.cacheSelect key with
  | .error _ => (none, [.cacheSelect key])
  | .ok (some cached) => (some cached, [.cacheSelect key])
  | .ok none =>
    match w.searchNearby requestBody with
    | .error _ => (none, [.cacheSelect key, .searchNearby requestBody])
    | .ok data =>
      let places := data.places.getD []
      if places.length > 0 then
        match w.cacheInsert key places with
        | .error _ =>
          (none, [.cacheSelect key, .searchNearby requestBody, .cacheInsert key places])
        | .ok _ =>
          (some places,
            [.cacheSelect key, .searchNearby requestBody, .cacheInsert key places])
      else
        (some places, [.cacheSelect key, .searchNearby requestBody])

/-- Lines 290-451: the handler once visitedNames and num_visits are known. -/
def pickTry (w : World) (preferences : Preferences) (location : Location)
    (visitedNames : List String) (num_visits : NumVisits) : Response × List Effect :=
  let minRating := preferences.minRating.getD (7 / 2)
  let radius := radiusOf preferences
  let types := typesOf w.rand preferences num_visits
  let found :=
    obtainPlaces w (cacheKeyOf location radius types.1) (requestBodyOf location radius types.1)
  match found.1 with
  | none => (failedToPick, found.2)
  | some places =>
    (respond w.rand types.2 visitedNames preferences.cuisines preferences.budget minRating
      places, found.2)

/-- The /pick handler. -/
def pick (w : World) (body : Body) : Run :=
  match body.preferences, body.location with
  | some preferences, some location =>
    let history := visitHistoryPhase w
    match history.1 with
    | none => ⟨none, history.2⟩
    | some (visitedNames, num_visits) =>
      let r := pickTry w preferences location visitedNames num_visits
      ⟨some r.1, history.2 ++ r.2⟩
  | _, _ => ⟨some ⟨400, .error "Preferences and location required"⟩, []⟩

/-! ## A concrete request

The end-to-end scenario of the specification: twelve places returned by the provider, of
which eight pass the filter, three of those eight being in the visit history of the user. -/

/-- The preferences of the scenario. -/
def scenarioPreferences : Preferences := ⟨[], ["$", "$$"], some 2000, some 4⟩

/-- The location of the scenario. -/
def scenarioLocation : Location := ⟨137563 / 10000, 1005018 / 10000⟩

/-- The request body of the scenario. -/
def scenarioBody : Body := ⟨some scenarioPreferences, some scenarioLocation⟩

/-- The twelve places returned by the provider, in the order of the provider. -/
def scenarioPlaces : List Place :=
  [mkPlace "N1" (9 / 2) (some "PRICE_LEVEL_MODERATE"),
   mkPlace "V1" (24 / 5) (some "PRICE_LEVEL_INEXPENSIVE"),
   { mkPlace "Closed" (9 / 2) (some "PRICE_LEVEL_MODERATE") with
     businessStatus := some "CLOSED_TEMPORARILY" },
   mkPlace "N2" (41 / 10) (some "PRICE_LEVEL_INEXPENSIVE"),
   mkPlace "Low" (39 / 10) (some "PRICE_LEVEL_MODERATE"),
   mkPlace "V2" (43 / 10) (some "PRICE_LEVEL_MODERATE"),
   mkPlace "N3" 4 (some "PRICE_LEVEL_MODERATE"),
   mkPlace "Pricey" (9 / 2) (some "PRICE_LEVEL_EXPENSIVE"),
   mkPlace "N4" (47 / 10) (some "PRICE_LEVEL_INEXPENSIVE"),
   mkPlace "V3" (9 / 2) (some "PRICE_LEVEL_MODERATE"),
   mkPlace "Unpriced" (9 / 2) none,
   mkPlace "N5" 5 (some "PRICE_LEVEL_MODERATE")]

/-- The names in the visit history of the user. -/
def scenarioVisited : List String := ["V1", "V2", "V3"]

/-- The eight places of the scenario that pass the filter. -/
def scenarioFiltered : List Place :=
  [mkPlace "N1" (9 / 2) (some "PRICE_LEVEL_MODERATE"),
   mkPlace "V1" (24 / 5) (some "PRICE_LEVEL_INEXPENSIVE"),
   mkPlace "N2" (41 / 10) (some "PRICE_LEVEL_INEXPENSIVE"),
   mkPlace "V2" (43 / 10) (some "PRICE_LEVEL_MODERATE"),
   mkPlace "N3" 4 (some "PRICE_LEVEL_MODERATE"),
   mkPlace "N4" (47 / 10) (some "PRICE_LEVEL_INEXPENSIVE"),
   mkPlace "V3" (9 / 2) (some "PRICE_LEVEL_MODERATE"),
   mkPlace "N5" 5 (some "PRICE_LEVEL_MODERATE")]

/-- The eight places in ranked order. -/
def scenarioSorted : List Place :=
  [mkPlace "N1" (9 / 2) (some "PRICE_LEVEL_MODERATE"),
   mkPlace "N2" (41 / 10) (some "PRICE_LEVEL_INEXPENSIVE"),
   mkPlace "N3" 4 (some "PRICE_LEVEL_MODERATE"),
   mkPlace "N4" (47 / 10) (some "PRICE_LEVEL_INEXPENSIVE"),
   mkPlace "N5" 5 (some "PRICE_LEVEL_MODERATE"),
   mkPlace "V1" (24 / 5) (some "PRICE_LEVEL_INEXPENSIVE"),
   mkPlace "V2" (43 / 10) (some "PRICE_LEVEL_MODERATE"),
   mkPlace "V3" (9 / 2) (some "PRICE_LEVEL_MODERATE")]

/-- Ten results of Math.random(): two for the default types (indices 0 and 24), then
eight for the shuffle, which exchanges the entries at positions 7 and 1 and leaves every
other entry in place. -/
def scenarioDraws : List ℚ :=
  [0, 0, 1 / 8, 99 / 100, 99 / 100, 99 / 100, 99 / 100, 99 / 100, 99 / 100, 99 / 100]

/-- The collaborators of the scenario: user 7 is authenticated and has visited the places
of scenarioVisited, the cache holds no matching row, the provider answers with the given
response, the cache write succeeds, and Math.random() yields scenarioDraws. -/
def scenarioWorld (answer : ProviderResponse) : World :=
  { userId := some 7
    visitCount := fun _ => .ok 3
    visitHistory := fun _ => .ok scenarioVisited
    cacheSelect := fun _ => .ok none
    searchNearby := fun _ => .ok answer
    cacheInsert := fun _ _ => .ok ()
    rand := drawsOf scenarioDraws }

/-- The answer of the provider in the scenario: HTTP 200 with the twelve places. -/
def scenarioAnswer : ProviderResponse := ⟨200, none, some scenarioPlaces⟩

/-- The scenario with a SELECT on place_cache that rejects. -/
def scenarioWorldLookupFails : World :=
  { scenarioWorld scenarioAnswer with cacheSelect := fun _ => .error "connection terminated" }

/-- The scenario with an INSERT into place_cache that rejects. -/
def scenarioWorldInsertFails : World :=
  { scenarioWorld scenarioAnswer with cacheInsert := fun _ _ => .error "connection terminated" }

/-- A place that is temporarily closed. -/
def closedPlace : Place :=
  { mkPlace "Closed" (9 / 2) (some "PRICE_LEVEL_MODERATE") with
    businessStatus := some "CLOSED_TEMPORARILY" }

/-- A provider answer with HTTP status 403 whose JSON body carries an error and no
places. -/
def deniedAnswer : ProviderResponse := ⟨403, some "PERMISSION_DENIED", none⟩

/-- The scenario with a fetch of the provider that rejects. -/
def scenarioWorldFetchRejects : World :=
  { scenarioWorld scenarioAnswer with searchNearby := fun _ => .error "ECONNREFUSED" }

/-- The type-set that a call carries: the types parameter of the two statements on
place_cache and the includedTypes of the provider request; the queries on the visit
history carry none. -/
def Effect.typeSet : Effect → Option (Option (List (Option String)))
  | .cacheSelect key => some key.typesKey
  | .searchNearby body => some body.includedTypes
  | .cacheInsert key _ => some key.typesKey
  | .visitCountQuery _ => none
  | .visitHistoryQuery _ => none

/-- The preferences of the scenario with minRating 4.8 and distance 1000. -/
def ratedPreferences : Preferences := ⟨[], ["$", "$$"], some 1000, some (24 / 5)⟩

/-- The preferences of the scenario with two explicit cuisines. -/
def cuisinePreferences : Preferences :=
  ⟨["thai_restaurant", "cafe"], ["$", "$$"], some 2000, some 4⟩

/-- The scenario for a user whose visit count in the store is 10. -/
def scenarioWorldTenVisits : World :=
  { scenarioWorld scenarioAnswer with visitCount := fun _ => .ok 10 }

/-- The while loop of shuffleArray when the successive values of randomIndex are given
as a list. -/
def shuffleWith {α : Type} : ℕ → List ℕ → List α → List α
  | currentIndex + 1, randomIndex :: rest, array =>
    shuffleWith currentIndex rest (swapEntries array currentIndex randomIndex)
  | _, _, array => array

/-- The successive values of randomIndex in the while loop of shuffleArray started with
the given currentIndex after k calls of Math.random(). -/
def choicesOf (rand : ℕ → Draw) : ℕ → ℕ → List ℕ
  | 0, _ => []
  | currentIndex + 1, k =>
    randomIndex (rand k) (currentIndex + 1) :: choicesOf rand currentIndex (k + 1)

/-- All sequences of index choices for an array of n entries: the first choice is below
n, the second below n - 1, and so on down to the last, which is 0. -/
def choiceSeqs : ℕ → List (List ℕ)
  | 0 => [[]]
  | n + 1 => (List.range (n + 1)).flatMap (fun j => (choiceSeqs n).map (fun js => j :: js))

/-- A random source that yields r first and then the results of rand. -/
def consDraw (r : Draw) (rand : ℕ → Draw) (n : ℕ) : Draw :=
  match n with
  | 0 => r
  | m + 1 => rand m

/-- The function Math.round on exact numbers: the integer closest to x, the one towards
plus infinity when x is halfway between two integers. -/
def mathRound (x : ℚ) : ℤ :=
  ⌊x + 1 / 2⌋

/-- One row of the table place_cache: the four key columns, the response column (the
places, stored as JSON and read back as the same sequence) and the time of the write. -/
structure CacheRow where
  lat_round : ℚ
  lng_round : ℚ
  radius : ℤ
  types : Option (List (Option String))
  response : List Place
  cached_at : ℕ

/-- The WHERE clause of the SELECT on place_cache: the four columns equal the four
parameters; a comparison with NULL (an undefined types value) is not true. -/
def CacheRow.matchesKey (row : CacheRow) (key : CacheKey) : Bool :=
  decide (row.lat_round = key.latRound) && decide (row.lng_round = key.lngRound) &&
    decide (row.radius = key.radius) &&
    (match row.types, key.typesKey with
     | some stored, some asked => decide (stored = asked)
     | _, _ => false)

/-- The clause ORDER BY cached_at DESC LIMIT 1: a row with the greatest cached_at (among
rows written at the same time, the first one). -/
def newestRow : List CacheRow → Option CacheRow
  | [] => none
  | row :: rows =>
    match newestRow rows with
    | none => some row
    | some other => if row.cached_at < other.cached_at then some other else some row

/-- The SELECT on place_cache of the /pick handler (lines 311-316). -/
def selectCache (table : List CacheRow) (key : CacheKey) : Option CacheRow :=
  newestRow (table.filter (fun row => row.matchesKey key))

/-- Modelled from the spec: the declaration of the table place_cache is not in the
source; its column cached_at, which the INSERT of the /pick handler (lines 358-362) does
not set, holds the time of the write. The INSERT adds one row with the four key
parameters and the places. -/
def insertCache (table : List CacheRow) (now : ℕ) (key : CacheKey) (places : List Place) :
    List CacheRow :=
  table ++ [⟨key.latRound, key.lngRound, key.radius, key.typesKey, places, now⟩]

/-- The collaborators w when the two statements on place_cache act on the given table:
the SELECT answers with the response of the selected row and the INSERT succeeds. -/
def World.onTable (w : World) (table : List CacheRow) : World :=
  { w with
    cacheSelect := fun key => .ok ((selectCache table key).map (fun row => row.response))
    cacheInsert := fun _ _ => .ok () }

/-- The table after a request made at time now: the rows of its INSERT statements are
added. -/
def tableAfter (table : List CacheRow) (now : ℕ) : List Effect → List CacheRow
  | [] => table
  | .cacheInsert key places :: rest => tableAfter (insertCache table now key places) now rest
  | .cacheSelect _ :: rest => tableAfter table now rest
  | .searchNearby _ :: rest => tableAfter table now rest
  | .visitCountQuery _ :: rest => tableAfter table now rest
  | .visitHistoryQuery _ :: rest => tableAfter table now rest

/-- Whether a call is a call of the provider. -/
def Effect.isProviderCall : Effect → Bool
  | .searchNearby _ => true
  | _ => false

/-- The function roundCoord when the quotient and the product are rounded by fl, as in
floating-point arithmetic; Math.round is exact. With fl the identity it is roundCoord. -/
def roundCoordWith (fl : ℚ → ℚ) (coord precision : ℚ) : ℚ :=
  fl ((mathRound (fl (coord / precision)) : ℚ) * precision)

/-- An operational place of tier $$ rated 4.5 with the given name and types. -/
def typedPlace (name : String) (types : List String) : Place :=
  { mkPlace name (9 / 2) (some "PRICE_LEVEL_MODERATE") with types := some types }

/-- A filter output whose places match the cuisines thai_restaurant and cafe once (A),
twice (B), twice (V1, a visited place) and not at all (C, which has no types), in an order
that is not the ranked one. -/
def typedFiltered : List Place :=
  [typedPlace "A" ["cafe", "bakery"],
   typedPlace "V1" ["thai_restaurant", "cafe"],
   typedPlace "B" ["thai_restaurant", "cafe", "deli"],
   mkPlace "C" (9 / 2) (some "PRICE_LEVEL_MODERATE")]

/-- Rounding to the nearest integer, a value halfway between two integers going to the
even one. -/
def roundHalfEven (x : ℚ) : ℤ :=
  if x - (⌊x⌋ : ℚ) < 1 / 2 then ⌊x⌋
  else if 1 / 2 < x - (⌊x⌋ : ℚ) then ⌊x⌋ + 1
  else if ⌊x⌋ % 2 = 0 then ⌊x⌋
  else ⌊x⌋ + 1

/-- The binary64 number nearest to x, ties going to the even significand: for
2^e <= |x| < 2^(e+1) the multiple of 2^(e-52) nearest to x. Overflow and subnormal numbers
are not modelled. -/
def binary64 (x : ℚ) : ℚ :=
  if x = 0 then 0
  else (roundHalfEven (x / (2 : ℚ) ^ (Int.log 2 |x| - 52)) : ℚ) * (2 : ℚ) ^ (Int.log 2 |x| - 52)

/-- The function getRandomIntInclusive on integer bounds when the product and the sum
are rounded by fl, as in floating-point arithmetic; Math.floor is exact. With fl the
identity it is getRandomIntInclusive. -/
def getRandomIntInclusiveWith (fl : ℚ → ℚ) (r : Draw) (min max : ℤ) : ℤ :=
  ⌊fl (fl (r.val * ((max - min + 1 : ℤ) : ℚ)) + (min : ℚ))⌋

/-- The greatest result of Math.random() that has 52 fraction bits: 1 - 2^-52. -/
def Draw.greatest : Draw := ⟨1 - 1 / 2 ^ 52, by norm_num, by norm_num⟩

/-! ## Theorems -/

/-! ### Helper lemmas -/

/-- A place without a price level never matches a non-empty budget list: the fallback
value "$$" is not a key of priceLevelMap, so the lookup yields undefined. -/
theorem passesFilter_no_priceLevel (budget : List String) (minRating : ℚ) (place : Place)
    (hb : budget ≠ []) (hp : place.priceLevel = none) :
    passesFilter budget minRating place = false := by
  cases budget with
  | nil => exact absurd rfl hb
  | cons b bs => simp [passesFilter, hp, strOr, priceLevelMap, includes]

theorem getRandomIntInclusive_eq (r : Draw) (min max k : ℤ)
    (h1 : (k : ℚ) ≤ r.val * ((max - min + 1 : ℤ) : ℚ) + (min : ℚ))
    (h2 : r.val * ((max - min + 1 : ℤ) : ℚ) + (min : ℚ) < (k : ℚ) + 1) :
    getRandomIntInclusive r min max = k := by
  unfold getRandomIntInclusive
  exact Int.floor_eq_iff.mpr ⟨h1, h2⟩

theorem Draw.ofRat_val (q : ℚ) (h0 : 0 ≤ q) (h1 : q < 1) : (Draw.ofRat q).val = q := by
  simp [Draw.ofRat, h0, h1]

section
variable {α : Type} (cmp : α → α → ℤ)

theorem insertSorted_perm (a : α) (l : List α) : (insertSorted cmp a l).Perm (a :: l) := by
  induction l with
  | nil => exact List.Perm.refl _
  | cons b l ih =>
    unfold insertSorted
    split_ifs with h
    · exact List.Perm.refl _
    · exact (List.Perm.cons b ih).trans (List.Perm.swap a b l)

theorem arraySort_perm (l : List α) : (arraySort cmp l).Perm l := by
  induction l with
  | nil => exact List.Perm.refl _
  | cons a l ih =>
    unfold arraySort
    exact (insertSorted_perm cmp a _).trans (List.Perm.cons a ih)

theorem insertSorted_pairwise
    (htotal : ∀ a b, cmp a b ≤ 0 ∨ cmp b a ≤ 0)
    (htrans : ∀ a b c, cmp a b ≤ 0 → cmp b c ≤ 0 → cmp a c ≤ 0)
    (a : α) (l : List α) (hl : l.Pairwise (fun x y => cmp x y ≤ 0)) :
    (insertSorted cmp a l).Pairwise (fun x y => cmp x y ≤ 0) := by
  induction l with
  | nil => simp [insertSorted]
  | cons b l ih =>
    unfold insertSorted
    rw [List.pairwise_cons] at hl
    split_ifs with h
    · refine List.pairwise_cons.mpr ⟨?_, List.pairwise_cons.mpr hl⟩
      intro c hc
      rcases List.mem_cons.mp hc with rfl | hc
      · exact h
      · exact htrans _ _ _ h (hl.1 c hc)
    · refine List.pairwise_cons.mpr ⟨?_, ih hl.2⟩
      intro c hc
      rcases List.mem_cons.mp ((insertSorted_perm cmp a l).subset hc) with rfl | hc
      · exact (htotal _ _).resolve_left h
      · exact hl.1 c hc

theorem arraySort_pairwise
    (htotal : ∀ a b, cmp a b ≤ 0 ∨ cmp b a ≤ 0)
    (htrans : ∀ a b c, cmp a b ≤ 0 → cmp b c ≤ 0 → cmp a c ≤ 0)
    (l : List α) : (arraySort cmp l).Pairwise (fun x y => cmp x y ≤ 0) := by
  induction l with
  | nil => simp [arraySort]
  | cons a l ih =>
    unfold arraySort
    exact insertSorted_pairwise cmp htotal htrans a _ ih

theorem filter_insertSorted (P : α → Bool)
    (hP : ∀ a b, P a = true → P b = true → cmp a b ≤ 0) (a : α) (l : List α) :
    (insertSorted cmp a l).filter P = (a :: l).filter P := by
  induction l with
  | nil => rfl
  | cons b l ih =>
    unfold insertSorted
    split_ifs with h
    · rfl
    · rw [List.filter_cons, ih]
      by_cases ha : P a = true
      · have hb : P b = false := by
          by_contra hb
          exact h (hP a b ha (by simpa using hb))
        simp [List.filter_cons, ha, hb]
      · simp [List.filter_cons, ha]

theorem filter_arraySort (P : α → Bool)
    (hP : ∀ a b, P a = true → P b = true → cmp a b ≤ 0) (l : List α) :
    (arraySort cmp l).filter P = l.filter P := by
  induction l with
  | nil => rfl
  | cons a l ih =>
    unfold arraySort
    rw [filter_insertSorted cmp P hP, List.filter_cons, List.filter_cons, ih]

end

theorem comparator_total (visitedNames cuisines : List String) (a b : Place) :
    comparator visitedNames cuisines a b ≤ 0 ∨ comparator visitedNames cuisines b a ≤ 0 := by
  unfold comparator
  by_cases ha : placeName a ∈ visitedNames <;> by_cases hb : placeName b ∈ visitedNames <;>
    simp [ha, hb] <;> split_ifs <;> omega

theorem comparator_trans (visitedNames cuisines : List String) (a b c : Place)
    (hab : comparator visitedNames cuisines a b ≤ 0)
    (hbc : comparator visitedNames cuisines b c ≤ 0) :
    comparator visitedNames cuisines a c ≤ 0 := by
  unfold comparator at *
  by_cases ha : placeName a ∈ visitedNames <;> by_cases hb : placeName b ∈ visitedNames <;>
    by_cases hc : placeName c ∈ visitedNames <;>
    simp [ha, hb, hc] at hab hbc ⊢ <;> split_ifs at hab hbc ⊢ <;> omega

theorem comparator_visited (visitedNames cuisines : List String) (a b : Place)
    (hab : comparator visitedNames cuisines a b ≤ 0) :
    ¬ (placeName a ∈ visitedNames ∧ placeName b ∉ visitedNames) := by
  rintro ⟨ha, hb⟩
  simp [comparator, ha, hb] at hab

theorem comparator_same_key (visitedNames cuisines : List String) (a b : Place)
    (hv : decide (placeName a ∈ visitedNames) = decide (placeName b ∈ visitedNames))
    (hm : matchCount cuisines a = matchCount cuisines b) :
    comparator visitedNames cuisines a b = 0 := by
  simp [comparator, hv, hm]

section
variable {α : Type}

theorem swapEntries_length (l : List α) (i j : ℕ) : (swapEntries l i j).length = l.length := by
  unfold swapEntries
  split <;> simp

theorem swapEntries_subset (l : List α) (i j : ℕ) : ∀ x ∈ swapEntries l i j, x ∈ l := by
  intro x hx
  unfold swapEntries at hx
  split at hx
  next atCurrent atRandom hc hr =>
    rcases List.mem_or_eq_of_mem_set hx with h | rfl
    · rcases List.mem_or_eq_of_mem_set h with h | rfl
      · exact h
      · exact List.getElem?_mem hr
    · exact List.getElem?_mem hc
  next => exact hx

theorem shuffleLoop_length (rand : ℕ → Draw) (c k : ℕ) (l : List α) :
    (shuffleLoop rand c k l).length = l.length := by
  induction c generalizing k l with
  | zero => rfl
  | succ c ih => rw [shuffleLoop, ih, swapEntries_length]

theorem shuffleLoop_subset (rand : ℕ → Draw) (c k : ℕ) (l : List α) :
    ∀ x ∈ shuffleLoop rand c k l, x ∈ l := by
  induction c generalizing k l with
  | zero => exact fun x hx => hx
  | succ c ih =>
    intro x hx
    rw [shuffleLoop] at hx
    exact swapEntries_subset _ _ _ x (ih _ _ x hx)

theorem topTwo_length (rand : ℕ → Draw) (k : ℕ) (sorted : List α) :
    (topTwo rand k sorted).length = min 2 sorted.length := by
  unfold topTwo
  simp only
  split_ifs with h
  · rw [List.length_take, shuffleArray, shuffleLoop_length, List.length_take]
    omega
  · rw [List.length_take, List.length_take]
    omega

theorem topTwo_subset (rand : ℕ → Draw) (k : ℕ) (sorted : List α) :
    ∀ x ∈ topTwo rand k sorted, x ∈ sorted.take 10 := by
  intro x hx
  unfold topTwo at hx
  simp only at hx
  split_ifs at hx with h
  · exact shuffleLoop_subset _ _ _ _ x (List.mem_of_mem_take hx)
  · exact List.mem_of_mem_take hx

theorem take_of_pairwise_split (P : α → Bool) (l : List α)
    (hl : l.Pairwise (fun a b => ¬ (P a = false ∧ P b = true))) (n : ℕ)
    (hn : n ≤ (l.filter P).length) : ∀ x ∈ l.take n, P x = true := by
  induction l generalizing n with
  | nil => simp
  | cons a t ih =>
    cases n with
    | zero => simp
    | succ m =>
      rw [List.pairwise_cons] at hl
      intro x hx
      rw [List.take_succ_cons, List.mem_cons] at hx
      by_cases ha : P a = true
      · rcases hx with rfl | hx
        · exact ha
        · refine ih hl.2 m ?_ x hx
          simpa [List.filter_cons, ha] using hn
      · exfalso
        have hnone : t.filter P = [] := by
          rw [List.filter_eq_nil_iff]
          intro b hb hPb
          exact hl.1 b hb ⟨by simpa using ha, hPb⟩
        simp [List.filter_cons, ha, hnone] at hn
end

theorem randomIndex_eq (r : Draw) (c j : ℕ) (h1 : (j : ℚ) ≤ r.val * (c : ℚ))
    (h2 : r.val * (c : ℚ) < (j : ℚ) + 1) : randomIndex r c = j := by
  unfold randomIndex
  have hfloor : ⌊r.val * (c : ℚ)⌋ = (j : ℤ) :=
    Int.floor_eq_iff.mpr ⟨by exact_mod_cast h1, by exact_mod_cast h2⟩
  rw [hfloor]
  rfl

theorem drawsOf_val (l : List ℚ) (n : ℕ) (h0 : 0 ≤ l.getD n 0) (h1 : l.getD n 0 < 1) :
    (drawsOf l n).val = l.getD n 0 :=
  Draw.ofRat_val _ h0 h1

theorem sorted_places_pairwise (visitedNames cuisines : List String) (filtered : List Place) :
    (sorted_places visitedNames cuisines filtered).Pairwise
      (fun a b => ¬ (placeName a ∈ visitedNames ∧ placeName b ∉ visitedNames)) :=
  (arraySort_pairwise _ (comparator_total visitedNames cuisines)
    (comparator_trans visitedNames cuisines) filtered).imp
    (fun {a b} h => comparator_visited visitedNames cuisines a b h)

theorem pick_run (w : World) (body : Body) (preferences : Preferences)
    (location : Location) (visitedNames : List String) (num_visits : NumVisits)
    (hpref : body.preferences = some preferences) (hloc : body.location = some location)
    (hhistory : (visitHistoryPhase w).1 = some (visitedNames, num_visits)) :
    pick w body =
      ⟨some (pickTry w preferences location visitedNames num_visits).1,
        (visitHistoryPhase w).2 ++ (pickTry w preferences location visitedNames num_visits).2⟩ := by
  unfold pick
  rw [hpref, hloc]
  simp only [hhistory]

theorem pickTry_response (w : World) (preferences : Preferences) (location : Location)
    (visitedNames : List String) (num_visits : NumVisits) (places : List Place)
    (hplaces : (obtainPlaces w
        (cacheKeyOf location (radiusOf preferences) (typesOf w.rand preferences num_visits).1)
        (requestBodyOf location (radiusOf preferences)
          (typesOf w.rand preferences num_visits).1)).1 = some places) :
    (pickTry w preferences location visitedNames num_visits).1 =
      respond w.rand (typesOf w.rand preferences num_visits).2 visitedNames
        preferences.cuisines preferences.budget (preferences.minRating.getD (7 / 2)) places := by
  unfold pickTry
  simp only [hplaces]

theorem comparator_mkPlace (visitedNames : List String) (n m : String) (r s : ℚ)
    (p q : Option String) (hn : n ≠ "") (hm : m ≠ "") :
    comparator visitedNames [] (mkPlace n r p) (mkPlace m s q) =
      if decide (n ∈ visitedNames) ≠ decide (m ∈ visitedNames) then
        (if n ∈ visitedNames then 1 else -1) else 0 := by
  simp [comparator, placeName, strOr, mkPlace, barePlace, hn, hm, matchCount,
    preferredCuisinesSet]

theorem scenario_filtered : filtered_places ["$", "$$"] 4 scenarioPlaces = scenarioFiltered := by
  simp [filtered_places, scenarioPlaces, scenarioFiltered, passesFilter, mkPlace, barePlace,
    strOr, numOr, priceLevelMap, includes, List.filter_cons]
  norm_num

theorem scenario_sorted :
    sorted_places scenarioVisited [] scenarioFiltered = scenarioSorted := by
  simp [sorted_places, scenarioFiltered, scenarioSorted, scenarioVisited, arraySort,
    insertSorted, comparator_mkPlace]

theorem scenario_topTwo :
    topTwo (drawsOf scenarioDraws) 2 scenarioSorted =
      [mkPlace "N1" (9 / 2) (some "PRICE_LEVEL_MODERATE"),
       mkPlace "V3" (9 / 2) (some "PRICE_LEVEL_MODERATE")] := by
  have r8 : randomIndex (drawsOf scenarioDraws 2) 8 = 1 := by
    apply randomIndex_eq <;> rw [drawsOf_val] <;> norm_num [scenarioDraws]
  have r7 : randomIndex (drawsOf scenarioDraws 3) 7 = 6 := by
    apply randomIndex_eq <;> rw [drawsOf_val] <;> norm_num [scenarioDraws]
  have r6 : randomIndex (drawsOf scenarioDraws 4) 6 = 5 := by
    apply randomIndex_eq <;> rw [drawsOf_val] <;> norm_num [scenarioDraws]
  have r5 : randomIndex (drawsOf scenarioDraws 5) 5 = 4 := by
    apply randomIndex_eq <;> rw [drawsOf_val] <;> norm_num [scenarioDraws]
  have r4 : randomIndex (drawsOf scenarioDraws 6) 4 = 3 := by
    apply randomIndex_eq <;> rw [drawsOf_val] <;> norm_num [scenarioDraws]
  have r3 : randomIndex (drawsOf scenarioDraws 7) 3 = 2 := by
    apply randomIndex_eq <;> rw [drawsOf_val] <;> norm_num [scenarioDraws]
  have r2 : randomIndex (drawsOf scenarioDraws 8) 2 = 1 := by
    apply randomIndex_eq <;> rw [drawsOf_val] <;> norm_num [scenarioDraws]
  have r1 : randomIndex (drawsOf scenarioDraws 9) 1 = 0 := by
    apply randomIndex_eq <;> rw [drawsOf_val] <;> norm_num [scenarioDraws]
  simp [topTwo, scenarioSorted, shuffleArray, shuffleLoop, r8, r7, r6, r5, r4, r3, r2, r1,
    swapEntries]

theorem scenario_history (answer : ProviderResponse) :
    visitHistoryPhase (scenarioWorld answer) =
      (some (scenarioVisited, .queryResult 3), [.visitCountQuery 7, .visitHistoryQuery 7]) := rfl

theorem scenario_typesOf (answer : ProviderResponse) (num_visits : ℤ) :
    typesOf (scenarioWorld answer).rand scenarioPreferences (.queryResult num_visits) =
      (some [some "afghani_restaurant", some "brunch_restaurant"], 2) := by
  have e0 : getRandomIntInclusive (drawsOf scenarioDraws 0) 0 23 = 0 := by
    apply getRandomIntInclusive_eq <;> rw [drawsOf_val] <;> norm_num [scenarioDraws]
  have e1 : getRandomIntInclusive (drawsOf scenarioDraws 1) 24 46 = 24 := by
    apply getRandomIntInclusive_eq <;> rw [drawsOf_val] <;> norm_num [scenarioDraws]
  have hr : ¬ ((4 : ℚ) > 47 / 10 ∨ (some 2000 : Option ℤ) = some 500) := by norm_num
  simp only [typesOf, scenarioPreferences, scenarioWorld, Option.getD_some, empty_choice,
    if_neg hr, e0, e1]
  norm_num [NumVisits.gt, NumVisits.lt, NumVisits.toNumber, arrayAt, TYPES]
  rfl

theorem scenario_pick :
    (pick (scenarioWorld scenarioAnswer) scenarioBody).response =
      some ⟨200, .restaurants
        [toRestaurant (mkPlace "N1" (9 / 2) (some "PRICE_LEVEL_MODERATE")),
         toRestaurant (mkPlace "V3" (9 / 2) (some "PRICE_LEVEL_MODERATE"))]⟩ := by
  rw [pick_run (scenarioWorld scenarioAnswer) scenarioBody scenarioPreferences scenarioLocation
    scenarioVisited (.queryResult 3) rfl rfl rfl]
  simp only
  rw [pickTry_response (scenarioWorld scenarioAnswer) scenarioPreferences scenarioLocation
    scenarioVisited (.queryResult 3) scenarioPlaces rfl, scenario_typesOf]
  have hne : ¬ scenarioPlaces.length = 0 := by decide
  simp only [respond, if_neg hne, scenarioPreferences, Option.getD_some, scenario_filtered,
    scenario_sorted]
  rw [show (scenarioWorld scenarioAnswer).rand = drawsOf scenarioDraws from rfl, scenario_topTwo]
  rfl

theorem TYPES_eq_append : TYPES = App.REGIONS ++ App.TYPES := rfl

theorem scenario_two_unvisited :
    2 ≤ ((filtered_places scenarioPreferences.budget (scenarioPreferences.minRating.getD (7 / 2))
      scenarioPlaces).filter (fun p => decide (placeName p ∉ scenarioVisited))).length := by
  show 2 ≤ ((filtered_places ["$", "$$"] 4 scenarioPlaces).filter
    (fun p => decide (placeName p ∉ scenarioVisited))).length
  rw [scenario_filtered]
  simp [scenarioFiltered, scenarioVisited, placeName, strOr, mkPlace, barePlace,
    List.filter_cons]

theorem toRestaurant_name (p : Place) : (toRestaurant p).name = placeName p := rfl

theorem visitHistoryPhase_effects (w : World) :
    ∀ e ∈ (visitHistoryPhase w).2,
      (∃ u, e = Effect.visitCountQuery u) ∨ (∃ u, e = Effect.visitHistoryQuery u) := by
  intro e he
  unfold visitHistoryPhase at he
  split at he
  · split_ifs at he
    · simp at he
    · split at he
      · simp only [List.mem_singleton] at he
        exact Or.inl ⟨_, he⟩
      · simp only [List.mem_cons, List.mem_singleton, List.not_mem_nil, or_false] at he
        rcases he with he | he
        · exact Or.inl ⟨_, he⟩
        · exact Or.inr ⟨_, he⟩
  · simp at he

theorem pickTry_of_lookup_failure (w : World) (preferences : Preferences)
    (location : Location) (visitedNames : List String) (num_visits : NumVisits) (e : String)
    (hsel : w.cacheSelect
      (cacheKeyOf location (radiusOf preferences) (typesOf w.rand preferences num_visits).1)
        = .error e) :
    pickTry w preferences location visitedNames num_visits =
      (failedToPick, [.cacheSelect
        (cacheKeyOf location (radiusOf preferences)
          (typesOf w.rand preferences num_visits).1)]) := by
  simp only [pickTry, obtainPlaces, hsel]

theorem pickTry_of_insert_failure (w : World) (preferences : Preferences)
    (location : Location) (visitedNames : List String) (num_visits : NumVisits)
    (data : ProviderResponse) (places : List Place) (e : String)
    (hsel : w.cacheSelect
      (cacheKeyOf location (radiusOf preferences) (typesOf w.rand preferences num_visits).1)
        = .ok none)
    (hfetch : w.searchNearby
      (requestBodyOf location (radiusOf preferences) (typesOf w.rand preferences num_visits).1)
        = .ok data)
    (hdata : data.places = some places) (hne : places ≠ [])
    (hins : w.cacheInsert
      (cacheKeyOf location (radiusOf preferences) (typesOf w.rand preferences num_visits).1)
        places = .error e) :
    pickTry w preferences location visitedNames num_visits =
      (failedToPick,
        [.cacheSelect
          (cacheKeyOf location (radiusOf preferences) (typesOf w.rand preferences num_visits).1),
         .searchNearby
          (requestBodyOf location (radiusOf preferences)
            (typesOf w.rand preferences num_visits).1),
         .cacheInsert
          (cacheKeyOf location (radiusOf preferences) (typesOf w.rand preferences num_visits).1)
          places]) := by
  have hlen : places.length > 0 := List.length_pos.mpr hne
  simp only [pickTry, obtainPlaces, hsel, hfetch, hdata, Option.getD_some, if_pos hlen, hins]


theorem scenario_history_lookupFails :
    visitHistoryPhase scenarioWorldLookupFails =
      (some (scenarioVisited, .queryResult 3), [.visitCountQuery 7, .visitHistoryQuery 7]) := rfl

theorem scenario_respond_of (answer : ProviderResponse) :
    (pick (scenarioWorld answer) scenarioBody).response =
      some (respond (drawsOf scenarioDraws) 2 scenarioVisited [] ["$", "$$"] 4
        (answer.places.getD [])) := by
  rw [pick_run (scenarioWorld answer) scenarioBody scenarioPreferences scenarioLocation
      scenarioVisited (.queryResult 3) rfl rfl rfl]
  simp only
  have hplaces : (obtainPlaces (scenarioWorld answer)
      (cacheKeyOf scenarioLocation (radiusOf scenarioPreferences)
        (typesOf (scenarioWorld answer).rand scenarioPreferences (.queryResult 3)).1)
      (requestBodyOf scenarioLocation (radiusOf scenarioPreferences)
        (typesOf (scenarioWorld answer).rand scenarioPreferences (.queryResult 3)).1)).1
        = some (answer.places.getD []) := by
    simp only [obtainPlaces, scenarioWorld]
    split_ifs <;> rfl
  rw [pickTry_response (scenarioWorld answer) scenarioPreferences scenarioLocation
    scenarioVisited (.queryResult 3) (answer.places.getD []) hplaces, scenario_typesOf]
  rfl

theorem typesOf_rule1 (rand : ℕ → Draw) (preferences : Preferences) (num_visits : NumVisits)
    (hcuisines : preferences.cuisines = [])
    (hrule : preferences.minRating.getD (7 / 2) > 47 / 10 ∨ preferences.distance = some 500) :
    typesOf rand preferences num_visits = (some [some "restaurant"], 0) := by
  simp only [typesOf, hcuisines, empty_choice, if_pos hrule]
  rfl

theorem typesOf_cuisines (rand : ℕ → Draw) (preferences : Preferences)
    (num_visits : NumVisits) (hne : preferences.cuisines ≠ []) :
    (typesOf rand preferences num_visits).1 = some (preferences.cuisines.map some) := by
  have hlen : preferences.cuisines.length > 0 := List.length_pos.mpr hne
  simp only [typesOf, if_pos hlen]

theorem obtainPlaces_typeSet (w : World) (key : CacheKey) (requestBody : RequestBody)
    (T : Option (List (Option String))) (hkey : key.typesKey = T)
    (hbody : requestBody.includedTypes = T) :
    ∀ e ∈ (obtainPlaces w key requestBody).2, e.typeSet = some T := by
  intro e he
  unfold obtainPlaces at he
  have hsel : (Effect.cacheSelect key).typeSet = some T := by simp [Effect.typeSet, hkey]
  have hsearch : (Effect.searchNearby requestBody).typeSet = some T := by
    simp [Effect.typeSet, hbody]
  split at he
  · simp only [List.mem_singleton] at he; rw [he]; exact hsel
  · simp only [List.mem_singleton] at he; rw [he]; exact hsel
  · split at he
    · simp only [List.mem_cons, List.mem_singleton, List.not_mem_nil, or_false] at he
      rcases he with rfl | rfl
      · exact hsel
      · exact hsearch
    · simp only at he
      split_ifs at he
      · split at he <;>
          simp only [List.mem_cons, List.mem_singleton, List.not_mem_nil, or_false] at he <;>
          rcases he with rfl | rfl | rfl <;> first | exact hsel | exact hsearch
      · simp only [List.mem_cons, List.mem_singleton, List.not_mem_nil, or_false] at he
        rcases he with rfl | rfl
        · exact hsel
        · exact hsearch

theorem pickTry_typeSet (w : World) (preferences : Preferences) (location : Location)
    (visitedNames : List String) (num_visits : NumVisits) :
    ∀ e ∈ (pickTry w preferences location visitedNames num_visits).2,
      e.typeSet = some (typesOf w.rand preferences num_visits).1 := by
  intro e he
  have hsnd : (pickTry w preferences location visitedNames num_visits).2 =
      (obtainPlaces w
        (cacheKeyOf location (radiusOf preferences) (typesOf w.rand preferences num_visits).1)
        (requestBodyOf location (radiusOf preferences)
          (typesOf w.rand preferences num_visits).1)).2 := by
    unfold pickTry
    simp only
    split <;> rfl
  rw [hsnd] at he
  exact obtainPlaces_typeSet w _ _ _ rfl rfl e he

theorem pick_typeSet (w : World) (body : Body) (preferences : Preferences)
    (hpref : body.preferences = some preferences)
    (T : Option (List (Option String)))
    (hT : ∀ num_visits, (typesOf w.rand preferences num_visits).1 = T) :
    ∀ e ∈ (pick w body).effects, ∀ U, e.typeSet = some U → U = T := by
  intro e he U hU
  cases hloc : body.location with
  | none =>
    have hpick : pick w body = ⟨some ⟨400, .error "Preferences and location required"⟩, []⟩ := by
      unfold pick
      rw [hpref, hloc]
    rw [hpick] at he
    simp at he
  | some location =>
    cases hh : (visitHistoryPhase w).1 with
    | none =>
      have hpick : pick w body = ⟨none, (visitHistoryPhase w).2⟩ := by
        unfold pick
        rw [hpref, hloc]
        simp only [hh]
      rw [hpick] at he
      rcases visitHistoryPhase_effects w e he with ⟨u, rfl⟩ | ⟨u, rfl⟩ <;>
        simp [Effect.typeSet] at hU
    | some pr =>
      obtain ⟨vn, nv⟩ := pr
      rw [pick_run w body preferences location vn nv hpref hloc hh] at he
      rcases List.mem_append.mp he with he | he
      · rcases visitHistoryPhase_effects w e he with ⟨u, rfl⟩ | ⟨u, rfl⟩ <;>
          simp [Effect.typeSet] at hU
      · have hset := pickTry_typeSet w preferences location vn nv e he
        rw [hset, hT nv] at hU
        exact (Option.some.inj hU).symm

theorem numVisits_of_history (w : World) (visitedNames : List String) (num_visits : NumVisits)
    (h : (visitHistoryPhase w).1 = some (visitedNames, num_visits)) :
    (num_visits.gt 5 && num_visits.lt 20) = false := by
  have hcases : num_visits = .number 0 ∨ ∃ c, num_visits = .queryResult c := by
    unfold visitHistoryPhase at h
    split at h
    · split_ifs at h
      · simp only [Option.some.injEq, Prod.mk.injEq] at h
        exact Or.inl h.2.symm
      · split at h
        · simp at h
        · simp only [Option.some.injEq, Prod.mk.injEq] at h
          exact Or.inr ⟨_, h.2.symm⟩
    · simp only [Option.some.injEq, Prod.mk.injEq] at h
      exact Or.inl h.2.symm
  rcases hcases with rfl | ⟨c, rfl⟩
  · norm_num [NumVisits.gt, NumVisits.lt, NumVisits.toNumber]
  · simp [NumVisits.gt, NumVisits.lt, NumVisits.toNumber]

theorem numOr_zero (x : Option ℚ) : numOr x 0 = x.getD 0 := by
  cases x with
  | none => rfl
  | some q =>
    by_cases h : q = 0
    · simp [numOr, h]
    · simp [numOr, h]

theorem matchCount_of_ne_nil (cuisines : List String) (p : Place) (h : cuisines ≠ []) :
    matchCount cuisines p =
      ((p.types.getD []).filter (fun t => decide (t ∈ cuisines))).length := by
  have hpos : (preferredCuisinesSet cuisines).length > 0 := by
    cases cuisines with
    | nil => exact absurd rfl h
    | cons c cs =>
      apply List.length_pos.mpr
      intro hnil
      have : c ∈ (c :: cs).dedup := List.mem_dedup.mpr (List.mem_cons_self c cs)
      rw [preferredCuisinesSet] at hnil
      rw [hnil] at this
      exact List.not_mem_nil _ this
  unfold matchCount
  rw [if_pos hpos]
  simp [preferredCuisinesSet]

theorem comparator_matches (visitedNames cuisines : List String) (a b : Place)
    (hab : comparator visitedNames cuisines a b ≤ 0)
    (hv : (placeName a ∈ visitedNames ↔ placeName b ∈ visitedNames)) :
    matchCount cuisines b ≤ matchCount cuisines a := by
  unfold comparator at hab
  by_cases ha : placeName a ∈ visitedNames <;> by_cases hb : placeName b ∈ visitedNames
  · simp [ha, hb] at hab; split_ifs at hab <;> omega
  · exact absurd (hv.mp ha) hb
  · exact absurd (hv.mpr hb) ha
  · simp [ha, hb] at hab; split_ifs at hab <;> omega

theorem passesFilter_iff (budget : List String) (minRating : ℚ) (place : Place) :
    passesFilter budget minRating place = true ↔
      (budget = [] ∨ includes budget (priceLevelMap (strOr place.priceLevel "$$")) = true) ∧
      place.rating.getD 0 ≥ minRating ∧
      place.businessStatus = some "OPERATIONAL" := by
  unfold passesFilter
  simp only [Bool.and_eq_true, Bool.or_eq_true, beq_iff_eq, decide_eq_true_eq, numOr_zero,
    List.length_eq_zero, and_assoc]

section
variable {α β : Type}

theorem cons_set_perm (l : List α) (j : ℕ) (a y : α) (h : l[j]? = some y) :
    (y :: l.set j a).Perm (a :: l) := by
  induction l generalizing j with
  | nil => simp at h
  | cons b t ih =>
    cases j with
    | zero =>
      simp only [List.getElem?_cons_zero, Option.some.injEq] at h
      subst h
      exact List.Perm.swap _ _ _
    | succ j =>
      simp only [List.getElem?_cons_succ] at h
      simp only [List.set_cons_succ]
      exact (List.Perm.swap b y _).trans
        (((ih j h).cons b).trans (List.Perm.swap a b t))

theorem swapEntries_perm (l : List α) (i j : ℕ) : (swapEntries l i j).Perm l := by
  unfold swapEntries
  split
  next x y hx hy =>
    induction l generalizing i j with
    | nil => simp at hx
    | cons a t ih =>
      cases i with
      | zero =>
        simp only [List.getElem?_cons_zero, Option.some.injEq] at hx
        subst hx
        cases j with
        | zero =>
          simp only [List.getElem?_cons_zero, Option.some.injEq] at hy
          subst hy
          simp
        | succ j =>
          simp only [List.getElem?_cons_succ] at hy
          simp only [List.set_cons_zero, List.set_cons_succ]
          exact cons_set_perm t j _ y hy
      | succ i =>
        simp only [List.getElem?_cons_succ] at hx
        cases j with
        | zero =>
          simp only [List.getElem?_cons_zero, Option.some.injEq] at hy
          subst hy
          simp only [List.set_cons_zero, List.set_cons_succ]
          exact cons_set_perm t i _ x hx
        | succ j =>
          simp only [List.getElem?_cons_succ] at hy
          simp only [List.set_cons_succ]
          exact (ih i j hx hy).cons a
  next => exact List.Perm.refl _

theorem shuffleLoop_perm (rand : ℕ → Draw) (c k : ℕ) (l : List α) :
    (shuffleLoop rand c k l).Perm l := by
  induction c generalizing k l with
  | zero => exact List.Perm.refl _
  | succ c ih =>
    rw [shuffleLoop]
    exact (ih _ _).trans (swapEntries_perm _ _ _)

theorem shuffleArray_perm (rand : ℕ → Draw) (k : ℕ) (l : List α) :
    (shuffleArray rand k l).Perm l :=
  shuffleLoop_perm rand l.length k l

theorem swapEntries_map (f : α → β) (l : List α) (i j : ℕ) :
    swapEntries (l.map f) i j = (swapEntries l i j).map f := by
  unfold swapEntries
  simp only [List.getElem?_map]
  cases hi : l[i]? <;> cases hj : l[j]? <;> simp [List.map_set]

theorem shuffleLoop_map (rand : ℕ → Draw) (f : α → β) (c k : ℕ) (l : List α) :
    shuffleLoop rand c k (l.map f) = (shuffleLoop rand c k l).map f := by
  induction c generalizing k l with
  | zero => rfl
  | succ c ih => rw [shuffleLoop, shuffleLoop, swapEntries_map, ih]

theorem map_getElem?_range (l : List α) :
    (List.range l.length).map (fun i => l[i]?) = l.map some := by
  apply List.ext_getElem?
  intro n
  simp only [List.getElem?_map, List.getElem?_range]
  by_cases h : n < l.length
  · simp [List.getElem?_range, h]
  · simp [List.getElem?_range, h, List.getElem?_eq_none (not_lt.mp h)]
    omega

/-- The positions of the entries that the sampler returns: the first two entries of the
list of positions 0, ..., min(10, n) - 1 after the same treatment as the candidates. -/
theorem topTwo_positions (rand : ℕ → Draw) (k : ℕ) (ranked : List α) :
    ∃ positions : List ℕ,
      positions.Nodup ∧ positions.length = min 2 ranked.length ∧
      (∀ i ∈ positions, i < min 10 ranked.length) ∧
      (topTwo rand k ranked).map some = positions.map (fun i => ranked[i]?) := by
  set top := ranked.take 10 with htop
  have hlen : top.length = min 10 ranked.length := List.length_take _ _
  have hget : ∀ i, i < min 10 ranked.length → top[i]? = ranked[i]? := by
    intro i hi
    rw [htop, List.getElem?_take_of_lt (by omega)]
  by_cases hgt : top.length > 2
  · refine ⟨(shuffleLoop rand top.length k (List.range top.length)).take 2, ?_, ?_, ?_, ?_⟩
    · exact ((shuffleLoop_perm rand _ k _).nodup_iff.mpr (List.nodup_range _)).sublist
        (List.take_sublist _ _)
    · rw [List.length_take, shuffleLoop_length, List.length_range]; omega
    · intro i hi
      have := (shuffleLoop_perm rand _ k _).subset (List.mem_of_mem_take hi)
      rw [List.mem_range] at this
      omega
    · have hmem : ∀ i ∈ (shuffleLoop rand top.length k (List.range top.length)).take 2,
          top[i]? = ranked[i]? := by
        intro i hi
        have := (shuffleLoop_perm rand _ k _).subset (List.mem_of_mem_take hi)
        rw [List.mem_range] at this
        exact hget i (by omega)
      unfold topTwo
      simp only [← htop, if_pos hgt, shuffleArray]
      have hmap : (shuffleLoop rand top.length k top).map some =
          (shuffleLoop rand top.length k (List.range top.length)).map (fun i => top[i]?) := by
        rw [← shuffleLoop_map, ← map_getElem?_range, shuffleLoop_map]
      rw [List.map_take, hmap, ← List.map_take]
      exact List.map_congr_left hmem
  · refine ⟨(List.range top.length).take 2, ?_, ?_, ?_, ?_⟩
    · exact (List.nodup_range _).sublist (List.take_sublist _ _)
    · rw [List.length_take, List.length_range]; omega
    · intro i hi
      have := List.mem_range.mp (List.mem_of_mem_take hi)
      omega
    · have hmem : ∀ i ∈ (List.range top.length).take 2, top[i]? = ranked[i]? := by
        intro i hi
        have := List.mem_range.mp (List.mem_of_mem_take hi)
        exact hget i (by omega)
      unfold topTwo
      simp only [← htop, if_neg hgt]
      rw [List.map_take, ← map_getElem?_range, ← List.map_take]
      exact List.map_congr_left hmem
end

theorem randomIndex_lt (r : Draw) (c : ℕ) : randomIndex r (c + 1) < c + 1 := by
  unfold randomIndex
  have hnonneg : (0 : ℚ) ≤ r.val * ((c + 1 : ℕ) : ℚ) :=
    mul_nonneg r.nonneg (by positivity)
  have hlt : r.val * ((c + 1 : ℕ) : ℚ) < ((c + 1 : ℕ) : ℚ) := by
    have hpos : (0 : ℚ) < ((c + 1 : ℕ) : ℚ) := by positivity
    calc r.val * ((c + 1 : ℕ) : ℚ) < 1 * ((c + 1 : ℕ) : ℚ) :=
          mul_lt_mul_of_pos_right r.lt_one hpos
      _ = ((c + 1 : ℕ) : ℚ) := one_mul _
  have hfloor : ⌊r.val * ((c + 1 : ℕ) : ℚ)⌋ < ((c + 1 : ℕ) : ℤ) := by
    rw [Int.floor_lt]
    exact_mod_cast hlt
  have h0 : 0 ≤ ⌊r.val * ((c + 1 : ℕ) : ℚ)⌋ := Int.floor_nonneg.mpr hnonneg
  omega

theorem mem_choiceSeqs_succ (n : ℕ) (js : List ℕ) :
    js ∈ choiceSeqs (n + 1) ↔ ∃ j rest, j < n + 1 ∧ rest ∈ choiceSeqs n ∧ js = j :: rest := by
  simp only [choiceSeqs, List.mem_flatMap, List.mem_range, List.mem_map]
  constructor
  · rintro ⟨j, hj, rest, hrest, rfl⟩
    exact ⟨j, rest, hj, hrest, rfl⟩
  · rintro ⟨j, rest, hj, hrest, rfl⟩
    exact ⟨j, hj, rest, hrest, rfl⟩

theorem shuffleLoop_eq_shuffleWith {α : Type} (rand : ℕ → Draw) (c k : ℕ) (l : List α) :
    shuffleLoop rand c k l = shuffleWith c (choicesOf rand c k) l := by
  induction c generalizing k l with
  | zero => rfl
  | succ c ih => rw [shuffleLoop, choicesOf, shuffleWith, ih]

theorem choicesOf_mem (rand : ℕ → Draw) (c k : ℕ) : choicesOf rand c k ∈ choiceSeqs c := by
  induction c generalizing k with
  | zero => simp [choicesOf, choiceSeqs]
  | succ c ih =>
    rw [mem_choiceSeqs_succ]
    exact ⟨_, _, randomIndex_lt (rand k) c, ih (k + 1), rfl⟩

theorem choicesOf_consDraw (r : Draw) (rand : ℕ → Draw) (c k : ℕ) :
    choicesOf (consDraw r rand) c (k + 1) = choicesOf rand c k := by
  induction c generalizing k with
  | zero => rfl
  | succ c ih => rw [choicesOf, choicesOf, ih]; rfl

theorem exists_draws_of_choices (c : ℕ) (js : List ℕ) (hjs : js ∈ choiceSeqs c) :
    ∃ rand : ℕ → Draw, choicesOf rand c 0 = js := by
  induction c generalizing js with
  | zero =>
    simp only [choiceSeqs, List.mem_singleton] at hjs
    exact ⟨fun _ => Draw.zero, by rw [hjs]; rfl⟩
  | succ c ih =>
    obtain ⟨j, rest, hj, hrest, rfl⟩ := (mem_choiceSeqs_succ c js).mp hjs
    obtain ⟨rand, hrand⟩ := ih rest hrest
    have hpos : (0 : ℚ) < ((c + 1 : ℕ) : ℚ) := by positivity
    have h0 : (0 : ℚ) ≤ (j : ℚ) / ((c + 1 : ℕ) : ℚ) := by positivity
    have h1 : (j : ℚ) / ((c + 1 : ℕ) : ℚ) < 1 := by
      rw [div_lt_one hpos]
      exact_mod_cast hj
    refine ⟨consDraw (Draw.ofRat ((j : ℚ) / ((c + 1 : ℕ) : ℚ))) rand, ?_⟩
    rw [choicesOf, choicesOf_consDraw, hrand]
    congr 1
    apply randomIndex_eq
    · show (j : ℚ) ≤ (Draw.ofRat ((j : ℚ) / ((c + 1 : ℕ) : ℚ))).val * ((c + 1 : ℕ) : ℚ)
      rw [Draw.ofRat_val _ h0 h1, div_mul_cancel₀ _ (ne_of_gt hpos)]
    · show (Draw.ofRat ((j : ℚ) / ((c + 1 : ℕ) : ℚ))).val * ((c + 1 : ℕ) : ℚ) < (j : ℚ) + 1
      rw [Draw.ofRat_val _ h0 h1, div_mul_cancel₀ _ (ne_of_gt hpos)]
      linarith

theorem length_choiceSeqs (n : ℕ) : (choiceSeqs n).length = n.factorial := by
  induction n with
  | zero => rfl
  | succ n ih =>
    have hconst : (List.length ∘ fun j => List.map (fun js => j :: js) (choiceSeqs n)) =
        fun _ : ℕ => n.factorial := by
      funext j
      simp [ih]
    simp only [choiceSeqs, List.length_flatMap, hconst, List.map_const', List.length_range,
      List.sum_replicate, smul_eq_mul, Nat.factorial_succ]

section
variable {α : Type}

theorem swapEntries_getElem?_of_ne (l : List α) (a b i : ℕ) (hia : i ≠ a) (hib : i ≠ b) :
    (swapEntries l a b)[i]? = l[i]? := by
  unfold swapEntries
  split
  · rw [List.getElem?_set_ne (Ne.symm hib), List.getElem?_set_ne (Ne.symm hia)]
  · rfl

theorem swapEntries_getElem?_current (l : List α) (a b : ℕ) (ha : a < l.length)
    (hb : b < l.length) : (swapEntries l a b)[a]? = l[b]? := by
  unfold swapEntries
  rw [List.getElem?_eq_getElem ha, List.getElem?_eq_getElem hb]
  simp only
  by_cases hab : b = a
  · subst hab
    rw [List.getElem?_set_self (by rw [List.length_set]; exact hb)]
  · rw [List.getElem?_set_ne hab, List.getElem?_set_self ha]

theorem shuffleWith_perm (c : ℕ) (js : List ℕ) (l : List α) : (shuffleWith c js l).Perm l := by
  induction c generalizing js l with
  | zero => cases js <;> exact List.Perm.refl _
  | succ c ih =>
    cases js with
    | nil => exact List.Perm.refl _
    | cons j rest =>
      rw [shuffleWith]
      exact (ih rest _).trans (swapEntries_perm l c j)

theorem shuffleWith_getElem?_of_ge (c : ℕ) (js : List ℕ) (l : List α) (i : ℕ)
    (hjs : js ∈ choiceSeqs c) (hi : c ≤ i) : (shuffleWith c js l)[i]? = l[i]? := by
  induction c generalizing js l with
  | zero => cases js <;> rfl
  | succ c ih =>
    obtain ⟨j, rest, hj, hrest, rfl⟩ := (mem_choiceSeqs_succ c js).mp hjs
    rw [shuffleWith, ih rest _ hrest (by omega),
      swapEntries_getElem?_of_ne l c j i (by omega) (by omega)]

theorem shuffleWith_injective (c : ℕ) (l : List α) (hl : l.Nodup) (hc : c ≤ l.length)
    (js js' : List ℕ) (hjs : js ∈ choiceSeqs c) (hjs' : js' ∈ choiceSeqs c)
    (h : shuffleWith c js l = shuffleWith c js' l) : js = js' := by
  induction c generalizing l js js' with
  | zero =>
    simp only [choiceSeqs, List.mem_singleton] at hjs hjs'
    rw [hjs, hjs']
  | succ c ih =>
    obtain ⟨j, rest, hj, hrest, rfl⟩ := (mem_choiceSeqs_succ c js).mp hjs
    obtain ⟨j', rest', hj', hrest', rfl⟩ := (mem_choiceSeqs_succ c js').mp hjs'
    rw [shuffleWith, shuffleWith] at h
    have hat : l[j]? = l[j']? := by
      have hc' := congrArg (fun r => r[c]?) h
      simp only at hc'
      rw [shuffleWith_getElem?_of_ge c rest _ c hrest (le_refl c),
        shuffleWith_getElem?_of_ge c rest' _ c hrest' (le_refl c),
        swapEntries_getElem?_current l c j (by omega) (by omega),
        swapEntries_getElem?_current l c j' (by omega) (by omega)] at hc'
      exact hc'
    have hjj : j = j' := by
      by_contra hne
      rcases Nat.lt_or_gt_of_ne hne with hlt | hgt
      · exact List.nodup_iff_getElem?_ne_getElem?.mp hl j j' hlt (by omega) hat
      · exact List.nodup_iff_getElem?_ne_getElem?.mp hl j' j hgt (by omega) hat.symm
    subst hjj
    have hrest_eq := ih (swapEntries l c j) ((swapEntries_perm l c j).nodup_iff.mpr hl)
      (by rw [swapEntries_length]; omega) rest rest' hrest hrest' h
    rw [hrest_eq]

theorem nodup_choiceSeqs (n : ℕ) : (choiceSeqs n).Nodup := by
  induction n with
  | zero => simp [choiceSeqs]
  | succ n ih =>
    rw [choiceSeqs, List.nodup_flatMap]
    refine ⟨fun j _ => ih.map List.cons_injective, ?_⟩
    refine (List.nodup_range (n + 1)).imp ?_
    intro a b hab
    simp only [Function.onFun]
    rw [List.disjoint_left]
    intro js hja hjb
    simp only [List.mem_map] at hja hjb
    obtain ⟨r, _, rfl⟩ := hja
    obtain ⟨r', _, hr'⟩ := hjb
    exact hab (List.cons.inj hr').1.symm

theorem shuffleWith_all_perm (l : List α) (hl : l.Nodup) :
    ((choiceSeqs l.length).map (fun js => shuffleWith l.length js l)).Nodup ∧
    ((choiceSeqs l.length).map (fun js => shuffleWith l.length js l)).Perm l.permutations := by
  have hnodup : ((choiceSeqs l.length).map (fun js => shuffleWith l.length js l)).Nodup :=
    List.Nodup.map_on
      (fun js hjs js' hjs' h => shuffleWith_injective l.length l hl (le_refl _) js js' hjs hjs' h)
      (nodup_choiceSeqs l.length)
  refine ⟨hnodup, ?_⟩
  apply (List.subperm_of_subset hnodup ?_).perm_of_length_le
  · rw [List.length_permutations, List.length_map, length_choiceSeqs]
  · intro p hp
    obtain ⟨js, _, rfl⟩ := List.mem_map.mp hp
    exact List.mem_permutations.mpr (shuffleWith_perm _ _ _)

theorem count_permutations_head [DecidableEq α] (l : List α) (hl : l.Nodup) (x : α)
    (hx : x ∈ l) :
    (l.permutations.filter (fun p => decide (p[0]? = some x))).length =
      (l.length - 1).factorial := by
  have hperm : (l.permutations.filter (fun p => decide (p[0]? = some x))).Perm
      ((l.erase x).permutations.map (fun q => x :: q)) := by
    rw [List.perm_ext_iff_of_nodup ((List.nodup_permutations l hl).filter _)
      ((List.nodup_permutations _ (hl.erase x)).map List.cons_injective)]
    intro p
    simp only [List.mem_filter, List.mem_permutations, decide_eq_true_eq, List.mem_map]
    constructor
    · rintro ⟨hp, h0⟩
      cases p with
      | nil => simp at h0
      | cons y q =>
        simp only [List.getElem?_cons_zero, Option.some.injEq] at h0
        subst h0
        exact ⟨q, (List.cons_perm_iff_perm_erase.mp hp).2, rfl⟩
    · rintro ⟨q, hq, rfl⟩
      exact ⟨List.cons_perm_iff_perm_erase.mpr ⟨hx, hq⟩, by simp⟩
  rw [hperm.length_eq, List.length_map, List.length_permutations, List.length_erase_of_mem hx]

theorem count_choiceSeqs_head [DecidableEq α] (l : List α) (hl : l.Nodup) (x : α)
    (hx : x ∈ l) :
    ((choiceSeqs l.length).filter
      (fun js => decide ((shuffleWith l.length js l)[0]? = some x))).length =
      (l.length - 1).factorial := by
  rw [← count_permutations_head l hl x hx,
    ← ((shuffleWith_all_perm l hl).2.filter _).length_eq, List.filter_map, List.length_map]
  rfl
end

theorem mem_choiceSeqs_iff (n : ℕ) (js : List ℕ) :
    js ∈ choiceSeqs n ↔ js.length = n ∧ ∀ i (h : i < js.length), js[i] < n - i := by
  induction n generalizing js with
  | zero =>
    simp only [choiceSeqs, List.mem_singleton]
    constructor
    · rintro rfl
      exact ⟨rfl, fun i h => absurd h (Nat.not_lt_zero i)⟩
    · rintro ⟨h, _⟩
      exact List.length_eq_zero.mp h
  | succ n ih =>
    rw [mem_choiceSeqs_succ]
    constructor
    · rintro ⟨j, rest, hj, hrest, rfl⟩
      obtain ⟨hlen, hall⟩ := (ih rest).mp hrest
      refine ⟨by simp [hlen], fun i h => ?_⟩
      cases i with
      | zero => simpa using hj
      | succ i =>
        have := hall i (by simpa using h)
        simp only [List.getElem_cons_succ]
        omega
    · rintro ⟨hlen, hall⟩
      cases js with
      | nil => simp at hlen
      | cons j rest =>
        refine ⟨j, rest, ?_, (ih rest).mpr ⟨by simpa using hlen, fun i h => ?_⟩, rfl⟩
        · have := hall 0 (by simp)
          simpa using this
        · have := hall (i + 1) (by simpa using h)
          simp only [List.getElem_cons_succ] at this
          omega

theorem roundCoord_eq_mathRound (coord precision : ℚ) :
    roundCoord coord precision = (mathRound (coord / precision) : ℚ) * precision := rfl

theorem mathRound_intCast (n : ℤ) : mathRound (n : ℚ) = n := by
  unfold mathRound
  rw [Int.floor_eq_iff]
  constructor <;> linarith

theorem mathRound_half (m : ℤ) : mathRound ((m : ℚ) + 1 / 2) = m + 1 := by
  unfold mathRound
  rw [Int.floor_eq_iff]
  push_cast
  constructor <;> linarith

theorem roundCoord_idempotent (coord precision : ℚ) (hp : precision ≠ 0) :
    roundCoord (roundCoord coord precision) precision = roundCoord coord precision := by
  rw [roundCoord_eq_mathRound (roundCoord coord precision), roundCoord_eq_mathRound coord,
    mul_div_assoc, div_self hp, mul_one, mathRound_intCast]

theorem comparator_no_cuisines (visitedNames : List String) (a b : Place)
    (h : decide (placeName a ∈ visitedNames) = decide (placeName b ∈ visitedNames)) :
    comparator visitedNames [] a b = 0 := by
  simp [comparator, h, matchCount, preferredCuisinesSet]

theorem eq_filter_append_of_pairwise {α : Type} (P : α → Bool) (l : List α)
    (hl : l.Pairwise (fun a b => ¬ (P a = false ∧ P b = true))) :
    l = l.filter P ++ l.filter (fun a => !P a) := by
  induction l with
  | nil => rfl
  | cons a t ih =>
    rw [List.pairwise_cons] at hl
    by_cases ha : P a = true
    · simp only [List.filter_cons, ha, Bool.not_true, if_true, List.cons_append]
      simp only [Bool.false_eq_true, if_false]
      rw [← ih hl.2]
    · have hall : ∀ b ∈ t, P b = false := by
        intro b hb
        by_contra hPb
        exact hl.1 b hb ⟨by simpa using ha, by simpa using hPb⟩
      have hnone : t.filter P = [] := by
        rw [List.filter_eq_nil_iff]
        intro b hb
        simp [hall b hb]
      have hsame : t.filter (fun a => !P a) = t := by
        rw [List.filter_eq_self]
        intro b hb
        simp [hall b hb]
      simp [List.filter_cons, ha, hnone, hsame]

theorem getRandomIntInclusive_eq_iff (r : Draw) (min max k : ℤ) (h : min ≤ max) :
    getRandomIntInclusive r min max = k ↔
      ((k - min : ℤ) : ℚ) / ((max - min + 1 : ℤ) : ℚ) ≤ r.val ∧
      r.val < ((k - min + 1 : ℤ) : ℚ) / ((max - min + 1 : ℤ) : ℚ) := by
  have hpos : (0 : ℚ) < ((max - min + 1 : ℤ) : ℚ) := by
    have : (0 : ℤ) < max - min + 1 := by omega
    exact_mod_cast this
  unfold getRandomIntInclusive
  rw [Int.floor_eq_iff, div_le_iff₀ hpos, lt_div_iff₀ hpos]
  push_cast
  constructor
  · rintro ⟨h1, h2⟩
    constructor <;> linarith
  · rintro ⟨h1, h2⟩
    constructor <;> linarith

theorem getRandomIntInclusive_bounds (r : Draw) (min max : ℤ) (h : min ≤ max) :
    min ≤ getRandomIntInclusive r min max ∧ getRandomIntInclusive r min max ≤ max := by
  have hpos : (0 : ℚ) < ((max - min + 1 : ℤ) : ℚ) := by
    have : (0 : ℤ) < max - min + 1 := by omega
    exact_mod_cast this
  have h0 : 0 ≤ r.val * ((max - min + 1 : ℤ) : ℚ) := mul_nonneg r.nonneg hpos.le
  have h1 : r.val * ((max - min + 1 : ℤ) : ℚ) < ((max - min + 1 : ℤ) : ℚ) := by
    calc r.val * ((max - min + 1 : ℤ) : ℚ) < 1 * ((max - min + 1 : ℤ) : ℚ) :=
          mul_lt_mul_of_pos_right r.lt_one hpos
      _ = _ := one_mul _
  unfold getRandomIntInclusive
  constructor
  · rw [Int.le_floor]
    linarith
  · have hlt : ⌊r.val * ((max - min + 1 : ℤ) : ℚ) + (min : ℚ)⌋ < max + 1 := by
      rw [Int.floor_lt]
      push_cast at h1 ⊢
      linarith
    omega

theorem getRandomIntInclusive_attained (min max k : ℤ) (hmin : min ≤ k) (hmax : k ≤ max) :
    getRandomIntInclusive (Draw.ofRat (((k - min : ℤ) : ℚ) / ((max - min + 1 : ℤ) : ℚ)))
      min max = k := by
  have hpos : (0 : ℚ) < ((max - min + 1 : ℤ) : ℚ) := by
    have : (0 : ℤ) < max - min + 1 := by omega
    exact_mod_cast this
  have hk0 : (0 : ℚ) ≤ ((k - min : ℤ) : ℚ) := by
    have : (0 : ℤ) ≤ k - min := by omega
    exact_mod_cast this
  have hk1 : ((k - min : ℤ) : ℚ) < ((max - min + 1 : ℤ) : ℚ) := by
    have : k - min < max - min + 1 := by omega
    exact_mod_cast this
  have hval := Draw.ofRat_val (((k - min : ℤ) : ℚ) / ((max - min + 1 : ℤ) : ℚ))
    (div_nonneg hk0 hpos.le) ((div_lt_one hpos).mpr hk1)
  rw [getRandomIntInclusive_eq_iff _ _ _ _ (by omega), hval]
  constructor
  · exact le_refl _
  · rw [div_lt_div_iff_of_pos_right hpos]
    push_cast
    linarith

theorem matchesKey_iff (row : CacheRow) (key : CacheKey) :
    row.matchesKey key = true ↔
      row.lat_round = key.latRound ∧ row.lng_round = key.lngRound ∧
      row.radius = key.radius ∧ ∃ t, row.types = some t ∧ key.typesKey = some t := by
  unfold CacheRow.matchesKey
  cases hr : row.types <;> cases hk : key.typesKey <;>
    simp [and_assoc]
  intro _ _ _
  exact eq_comm

theorem newestRow_eq_none (rows : List CacheRow) : newestRow rows = none ↔ rows = [] := by
  cases rows with
  | nil => simp [newestRow]
  | cons row rest =>
    simp only [newestRow]
    cases newestRow rest with
    | none => simp
    | some other =>
      simp only
      split_ifs <;> simp

theorem newestRow_spec (rows : List CacheRow) (row : CacheRow)
    (h : newestRow rows = some row) :
    row ∈ rows ∧ ∀ r ∈ rows, r.cached_at ≤ row.cached_at := by
  induction rows generalizing row with
  | nil => simp [newestRow] at h
  | cons first rest ih =>
    simp only [newestRow] at h
    cases hrest : newestRow rest with
    | none =>
      rw [hrest] at h
      simp only [Option.some.injEq] at h
      subst h
      have : rest = [] := (newestRow_eq_none rest).mp hrest
      subst this
      simp
    | some other =>
      rw [hrest] at h
      obtain ⟨hmem, hmax⟩ := ih other hrest
      simp only at h
      split_ifs at h with hlt
      · simp only [Option.some.injEq] at h
        subst h
        refine ⟨List.mem_cons_of_mem _ hmem, fun r hr => ?_⟩
        rcases List.mem_cons.mp hr with rfl | hr
        · omega
        · exact hmax r hr
      · simp only [Option.some.injEq] at h
        subst h
        refine ⟨List.mem_cons_self _ _, fun r hr => ?_⟩
        rcases List.mem_cons.mp hr with rfl | hr
        · exact le_refl _
        · exact le_trans (hmax r hr) (by omega)

theorem newestRow_append_newer (rows : List CacheRow) (row : CacheRow)
    (h : ∀ r ∈ rows, r.cached_at < row.cached_at) : newestRow (rows ++ [row]) = some row := by
  induction rows with
  | nil => rfl
  | cons first rest ih =>
    have hrest := ih (fun r hr => h r (List.mem_cons_of_mem _ hr))
    have hfirst := h first (List.mem_cons_self _ _)
    rw [List.cons_append, newestRow, hrest]
    simp only [if_pos hfirst]

theorem selectCache_spec (table : List CacheRow) (key : CacheKey) (row : CacheRow)
    (h : selectCache table key = some row) :
    row ∈ table ∧ row.matchesKey key = true ∧
      ∀ r ∈ table, r.matchesKey key = true → r.cached_at ≤ row.cached_at := by
  obtain ⟨hmem, hmax⟩ := newestRow_spec _ row h
  rw [List.mem_filter] at hmem
  exact ⟨hmem.1, hmem.2, fun r hr hk => hmax r (List.mem_filter.mpr ⟨hr, hk⟩)⟩

theorem selectCache_ne_none (table : List CacheRow) (key : CacheKey) (row : CacheRow)
    (hrow : row ∈ table) (hkey : row.matchesKey key = true) : selectCache table key ≠ none := by
  intro h
  have := (newestRow_eq_none _).mp h
  have hmem : row ∈ table.filter (fun row => row.matchesKey key) :=
    List.mem_filter.mpr ⟨hrow, hkey⟩
  rw [this] at hmem
  exact List.not_mem_nil _ hmem

theorem selectCache_insertCache (table : List CacheRow) (now : ℕ) (key : CacheKey)
    (places : List Place) (t : List (Option String)) (htypes : key.typesKey = some t)
    (hnow : ∀ r ∈ table, r.matchesKey key = true → r.cached_at < now) :
    selectCache (insertCache table now key places) key =
      some ⟨key.latRound, key.lngRound, key.radius, key.typesKey, places, now⟩ := by
  have hmatch : (CacheRow.mk key.latRound key.lngRound key.radius key.typesKey places
      now).matchesKey key = true := by
    rw [matchesKey_iff]
    exact ⟨rfl, rfl, rfl, t, htypes, htypes⟩
  unfold selectCache insertCache
  rw [List.filter_append]
  simp only [List.filter_cons, hmatch, if_true, List.filter_nil]
  apply newestRow_append_newer
  intro r hr
  rw [List.mem_filter] at hr
  exact hnow r hr.1 hr.2

theorem visitHistoryPhase_onTable (w : World) (table : List CacheRow) :
    visitHistoryPhase (w.onTable table) = visitHistoryPhase w := rfl

theorem typesOf_isSome (rand : ℕ → Draw) (preferences : Preferences)
    (num_visits : NumVisits) : ∃ t, (typesOf rand preferences num_visits).1 = some t := by
  unfold typesOf
  simp only
  split_ifs with hc
  · exact ⟨_, rfl⟩
  · unfold empty_choice
    split_ifs with h1 h2
    · exact ⟨_, rfl⟩
    · obtain ⟨hlo, hhi⟩ := getRandomIntInclusive_bounds (rand 0) 0 2 (by norm_num)
      generalize getRandomIntInclusive (rand 0) 0 2 = i at hlo hhi
      have hi : i = 0 ∨ i = 1 ∨ i = 2 := by omega
      rcases hi with rfl | rfl | rfl <;> exact ⟨_, rfl⟩
    · exact ⟨_, rfl⟩

theorem pickTry_effects_eq (w : World) (preferences : Preferences) (location : Location)
    (visitedNames : List String) (num_visits : NumVisits) :
    (pickTry w preferences location visitedNames num_visits).2 =
      (obtainPlaces w
        (cacheKeyOf location (radiusOf preferences) (typesOf w.rand preferences num_visits).1)
        (requestBodyOf location (radiusOf preferences)
          (typesOf w.rand preferences num_visits).1)).2 := by
  unfold pickTry
  simp only
  split <;> rfl

theorem obtainPlaces_of_hit (w : World) (key : CacheKey) (requestBody : RequestBody)
    (cached : List Place) (h : w.cacheSelect key = .ok (some cached)) :
    obtainPlaces w key requestBody = (some cached, [.cacheSelect key]) := by
  simp only [obtainPlaces, h]

theorem obtainPlaces_of_store (w : World) (key : CacheKey) (requestBody : RequestBody)
    (data : ProviderResponse) (places : List Place)
    (hsel : w.cacheSelect key = .ok none) (hfetch : w.searchNearby requestBody = .ok data)
    (hdata : data.places = some places) (hne : places ≠ [])
    (hins : w.cacheInsert key places = .ok ()) :
    obtainPlaces w key requestBody =
      (some places, [.cacheSelect key, .searchNearby requestBody, .cacheInsert key places]) := by
  have hlen : places.length > 0 := List.length_pos.mpr hne
  simp only [obtainPlaces, hsel, hfetch, hdata, Option.getD_some, if_pos hlen, hins]

theorem obtainPlaces_providerCalls_of_miss (w : World) (key : CacheKey)
    (requestBody : RequestBody) (hsel : w.cacheSelect key = .ok none) :
    (obtainPlaces w key requestBody).2.filter Effect.isProviderCall =
      [.searchNearby requestBody] := by
  simp only [obtainPlaces, hsel]
  split
  · rfl
  · split_ifs
    · split <;> rfl
    · rfl

theorem visitHistoryPhase_no_providerCall (w : World) :
    (visitHistoryPhase w).2.filter Effect.isProviderCall = [] := by
  rw [List.filter_eq_nil_iff]
  intro e he
  rcases visitHistoryPhase_effects w e he with ⟨u, rfl⟩ | ⟨u, rfl⟩ <;> simp [Effect.isProviderCall]

theorem tableAfter_append (table : List CacheRow) (now : ℕ) (xs ys : List Effect) :
    tableAfter table now (xs ++ ys) = tableAfter (tableAfter table now xs) now ys := by
  induction xs generalizing table with
  | nil => rfl
  | cons e rest ih => cases e <;> exact ih _

theorem tableAfter_history (w : World) (table : List CacheRow) (now : ℕ) :
    tableAfter table now (visitHistoryPhase w).2 = table := by
  unfold visitHistoryPhase
  split
  · split_ifs
    · rfl
    · split <;> rfl
  · rfl

theorem pick_onTable_store (w : World) (table : List CacheRow) (body : Body)
    (preferences : Preferences) (location : Location) (visitedNames : List String)
    (num_visits : NumVisits) (data : ProviderResponse) (places : List Place)
    (hpref : body.preferences = some preferences) (hloc : body.location = some location)
    (hhistory : (visitHistoryPhase w).1 = some (visitedNames, num_visits))
    (hmiss : selectCache table
      (cacheKeyOf location (radiusOf preferences) (typesOf w.rand preferences num_visits).1)
        = none)
    (hfetch : w.searchNearby
      (requestBodyOf location (radiusOf preferences) (typesOf w.rand preferences num_visits).1)
        = .ok data)
    (hdata : data.places = some places) (hne : places ≠ []) :
    (pick (w.onTable table) body).effects = (visitHistoryPhase w).2 ++
      [.cacheSelect
        (cacheKeyOf location (radiusOf preferences) (typesOf w.rand preferences num_visits).1),
       .searchNearby
        (requestBodyOf location (radiusOf preferences)
          (typesOf w.rand preferences num_visits).1),
       .cacheInsert
        (cacheKeyOf location (radiusOf preferences) (typesOf w.rand preferences num_visits).1)
        places] := by
  rw [pick_run (w.onTable table) body preferences location visitedNames num_visits hpref hloc
    hhistory]
  simp only
  rw [pickTry_effects_eq, visitHistoryPhase_onTable]
  have hsel : (w.onTable table).cacheSelect
      (cacheKeyOf location (radiusOf preferences) (typesOf w.rand preferences num_visits).1)
        = .ok none := by
    show Except.ok ((selectCache table _).map _) = _
    rw [hmiss]
    rfl
  rw [show (w.onTable table).rand = w.rand from rfl,
    obtainPlaces_of_store (w.onTable table) _ _ data places hsel hfetch hdata hne rfl]

theorem mathRound_eq_of_close (z : ℚ) (n : ℤ) (h : |z - (n : ℚ)| < 1 / 2) :
    mathRound z = n := by
  unfold mathRound
  rw [abs_lt] at h
  rw [Int.floor_eq_iff]
  constructor <;> linarith [h.1, h.2]

theorem mathRound_abs_le (x B : ℚ) (h : |x| ≤ B) : |(mathRound x : ℚ)| ≤ B + 1 / 2 := by
  have h1 := Int.floor_le (x + 1 / 2)
  have h2 := Int.lt_floor_add_one (x + 1 / 2)
  rw [abs_le] at h ⊢
  unfold mathRound
  constructor <;> linarith [h.1, h.2]

theorem roundCoordWith_idempotent (fl : ℚ → ℚ) (c coord : ℚ)
    (hfl : ∀ x : ℚ, |x| ≤ 1000000 → |fl x - x| ≤ 1 / 100000000)
    (hc1 : 1 / 1001 ≤ c) (hc2 : c ≤ 1 / 999) (hcoord : |coord| ≤ 180) :
    roundCoordWith fl (roundCoordWith fl coord c) c = roundCoordWith fl coord c := by
  have hc : 0 < c := by linarith
  set n : ℤ := mathRound (fl (coord / c)) with hn
  -- the quotient and its rounding
  have hq : |coord / c| ≤ 180180 := by
    rw [abs_div, abs_of_pos hc, div_le_iff₀ hc]
    nlinarith [abs_nonneg coord]
  have hflq := hfl (coord / c) (by linarith)
  have hflq' : |fl (coord / c)| ≤ 180180 + 1 / 100000000 := by
    have := abs_sub_abs_le_abs_sub (fl (coord / c)) (coord / c)
    linarith
  have hnabs : |(n : ℚ)| ≤ 180181 := by
    have := mathRound_abs_le (fl (coord / c)) _ hflq'
    rw [← hn] at this
    linarith
  -- the product and its rounding
  have ha : |(n : ℚ) * c| ≤ 1000000 := by
    rw [abs_mul, abs_of_pos hc]
    nlinarith [abs_nonneg (n : ℚ)]
  have hy := hfl ((n : ℚ) * c) ha
  -- the second quotient
  have hb : |fl ((n : ℚ) * c) / c - (n : ℚ)| ≤ 1001 / 100000000 := by
    have heq : fl ((n : ℚ) * c) / c - (n : ℚ) = (fl ((n : ℚ) * c) - (n : ℚ) * c) / c := by
      field_simp
      ring
    rw [heq, abs_div, abs_of_pos hc, div_le_iff₀ hc]
    nlinarith
  have hb' : |fl ((n : ℚ) * c) / c| ≤ 1000000 := by
    have := abs_sub_abs_le_abs_sub (fl ((n : ℚ) * c) / c) (n : ℚ)
    linarith
  have hz := hfl (fl ((n : ℚ) * c) / c) hb'
  have hclose : |fl (fl ((n : ℚ) * c) / c) - (n : ℚ)| < 1 / 2 := by
    have := abs_sub_le (fl (fl ((n : ℚ) * c) / c)) (fl ((n : ℚ) * c) / c) (n : ℚ)
    linarith
  have hround : mathRound (fl (fl ((n : ℚ) * c) / c)) = n := mathRound_eq_of_close _ _ hclose
  show fl ((mathRound (fl (fl ((mathRound (fl (coord / c)) : ℚ) * c) / c)) : ℚ) * c) =
    fl ((mathRound (fl (coord / c)) : ℚ) * c)
  rw [← hn, hround]

theorem roundCoordWith_id (coord precision : ℚ) :
    roundCoordWith (fun x => x) coord precision = roundCoord coord precision := rfl

theorem comparator_eq (visitedNames cuisines : List String) (hne : cuisines ≠ []) (a b : Place) :
    comparator visitedNames cuisines a b =
      if decide (placeName a ∈ visitedNames) ≠ decide (placeName b ∈ visitedNames) then
        (if placeName a ∈ visitedNames then 1 else -1)
      else if ((a.types.getD []).filter (fun t => decide (t ∈ cuisines))).length ≠
          ((b.types.getD []).filter (fun t => decide (t ∈ cuisines))).length then
        (((b.types.getD []).filter (fun t => decide (t ∈ cuisines))).length : ℤ) -
          (((a.types.getD []).filter (fun t => decide (t ∈ cuisines))).length : ℤ)
      else 0 := by
  unfold comparator
  simp only [matchCount_of_ne_nil cuisines _ hne, decide_eq_true_eq]

theorem typedFiltered_sorted :
    sorted_places scenarioVisited ["thai_restaurant", "cafe"] typedFiltered =
      [typedPlace "B" ["thai_restaurant", "cafe", "deli"],
       typedPlace "A" ["cafe", "bakery"],
       mkPlace "C" (9 / 2) (some "PRICE_LEVEL_MODERATE"),
       typedPlace "V1" ["thai_restaurant", "cafe"]] := by
  have hne : ["thai_restaurant", "cafe"] ≠ ([] : List String) := by simp
  simp [sorted_places, typedFiltered, arraySort, insertSorted, comparator_eq _ _ hne,
    placeName, strOr, typedPlace, mkPlace, barePlace, scenarioVisited, List.filter_cons]

theorem getRandomIntInclusiveWith_id (r : Draw) (min max : ℤ) :
    getRandomIntInclusiveWith (fun x => x) r min max = getRandomIntInclusive r min max := rfl

theorem int_log_eq (x : ℚ) (e : ℤ) (hx : 0 < x) (hlo : (2 : ℚ) ^ e ≤ x)
    (hhi : x < (2 : ℚ) ^ (e + 1)) : Int.log 2 x = e := by
  have h1 : e ≤ Int.log 2 x := (Int.zpow_le_iff_le_log (by norm_num) hx).mp (by exact_mod_cast hlo)
  have h2 : Int.log 2 x < e + 1 :=
    (Int.lt_zpow_iff_log_lt (by norm_num) hx).mp (by exact_mod_cast hhi)
  omega

theorem binary64_eq (x : ℚ) (e n : ℤ) (hx : x ≠ 0) (hlo : (2 : ℚ) ^ e ≤ |x|)
    (hhi : |x| < (2 : ℚ) ^ (e + 1)) (hn : roundHalfEven (x / (2 : ℚ) ^ (e - 52)) = n) :
    binary64 x = (n : ℚ) * (2 : ℚ) ^ (e - 52) := by
  unfold binary64
  rw [if_neg hx, int_log_eq |x| e (abs_pos.mpr hx) hlo hhi, hn]

theorem roundHalfEven_of_lt (x : ℚ) (f : ℤ) (h1 : (f : ℚ) ≤ x) (h2 : x - (f : ℚ) < 1 / 2) :
    roundHalfEven x = f := by
  have hf : ⌊x⌋ = f := Int.floor_eq_iff.mpr ⟨h1, by linarith⟩
  unfold roundHalfEven
  rw [hf, if_pos h2]

theorem roundHalfEven_of_gt (x : ℚ) (f : ℤ) (h1 : 1 / 2 < x - (f : ℚ)) (h2 : x < (f : ℚ) + 1) :
    roundHalfEven x = f + 1 := by
  have hf : ⌊x⌋ = f := Int.floor_eq_iff.mpr ⟨by linarith, h2⟩
  unfold roundHalfEven
  rw [hf, if_neg (by linarith), if_pos h1]

theorem roundHalfEven_tie_odd (x : ℚ) (f : ℤ) (h : x = (f : ℚ) + 1 / 2) (hodd : f % 2 = 1) :
    roundHalfEven x = f + 1 := by
  have hf : ⌊x⌋ = f := Int.floor_eq_iff.mpr ⟨by linarith, by linarith⟩
  unfold roundHalfEven
  rw [hf, if_neg (by linarith), if_neg (by linarith), if_neg (by omega)]

theorem roundHalfEven_intCast (n : ℤ) : roundHalfEven (n : ℚ) = n :=
  roundHalfEven_of_lt _ n (le_refl _) (by norm_num)

theorem binary64_greatest_product :
    binary64 (Draw.greatest.val * ((46 - 24 + 1 : ℤ) : ℚ)) = 23 - 1 / 2 ^ 48 := by
  have hval : Draw.greatest.val * ((46 - 24 + 1 : ℤ) : ℚ) = 23 - 23 / 2 ^ 52 := by
    norm_num [Draw.greatest]
  rw [hval, binary64_eq (23 - 23 / 2 ^ 52) 4 (23 * 2 ^ 48 - 1) (by norm_num)
    (by rw [abs_of_pos (by norm_num)]; norm_num)
    (by rw [abs_of_pos (by norm_num)]; norm_num)]
  · norm_num
  · have h := roundHalfEven_of_gt ((23 - 23 / 2 ^ 52) / (2 : ℚ) ^ ((4 : ℤ) - 52))
      (23 * 2 ^ 48 - 2) (by norm_num) (by norm_num)
    rw [h]
    norm_num

theorem binary64_greatest_sum :
    binary64 ((23 - 1 / 2 ^ 48 : ℚ) + ((24 : ℤ) : ℚ)) = 47 := by
  have hval : (23 - 1 / 2 ^ 48 : ℚ) + ((24 : ℤ) : ℚ) = 47 - 1 / 2 ^ 48 := by norm_num
  rw [hval, binary64_eq (47 - 1 / 2 ^ 48) 5 (47 * 2 ^ 47) (by norm_num)
    (by rw [abs_of_pos (by norm_num)]; norm_num)
    (by rw [abs_of_pos (by norm_num)]; norm_num)]
  · norm_num
  · have h := roundHalfEven_tie_odd ((47 - 1 / 2 ^ 48) / (2 : ℚ) ^ ((5 : ℤ) - 52))
      (47 * 2 ^ 47 - 1) (by norm_num) (by norm_num)
    rw [h]
    norm_num

theorem binary64_greatest : binary64 Draw.greatest.val = Draw.greatest.val := by
  have hval : Draw.greatest.val = 1 - 1 / 2 ^ 52 := rfl
  rw [hval, binary64_eq (1 - 1 / 2 ^ 52) (-1) (2 ^ 53 - 2) (by norm_num)
    (by rw [abs_of_pos (by norm_num)]; norm_num)
    (by rw [abs_of_pos (by norm_num)]; norm_num)]
  · norm_num
  · have h := roundHalfEven_intCast (2 ^ 53 - 2)
    have hx : (1 - 1 / 2 ^ 52 : ℚ) / (2 : ℚ) ^ ((-1 : ℤ) - 52) = ((2 ^ 53 - 2 : ℤ) : ℚ) := by
      norm_num
    rw [hx, h]

/-! ### The claims -/

/-- C1 (the code departs from the claim): with budgets = ["$$"] and minRating = 4, an
OPERATIONAL place rated 9/2 with no priceLevel is rejected by the filter although "$$"
is in budgets. -/
theorem C1_unpriced_place_rejected :
    "$$" ∈ ["$$"] ∧
    (mkPlace "Som Tam" (9/2) none).businessStatus = some "OPERATIONAL" ∧
    numOr (mkPlace "Som Tam" (9/2) none).rating 0 ≥ 4 ∧
    (mkPlace "Som Tam" (9/2) none).priceLevel = none ∧
    passesFilter ["$$"] 4 (mkPlace "Som Tam" (9/2) none) = false ∧
    filtered_places ["$$"] 4 [mkPlace "Som Tam" (9/2) none] = [] := by
  refine ⟨by simp, rfl, ?_, rfl, ?_, ?_⟩
  · norm_num [mkPlace, barePlace, numOr]
  · exact passesFilter_no_priceLevel _ _ _ (by simp) rfl
  · have h := passesFilter_no_priceLevel ["$$"] 4 (mkPlace "Som Tam" (9/2) none) (by simp) rfl
    simp [filtered_places, h]

/-- C2 (amended): for every request with empty explicit cuisines whose visit history and
places were obtained and in which at least two non-visited places pass the filter, and
for every outcome of the random source, /pick answers 200 with exactly two restaurants,
both made from places of the filter output that are among the first ten ranked places;
both are non-visited when at least ten non-visited places pass the filter or no visited
place passes it. -/
theorem C2_two_places_from_filter (w : World) (body : Body) (preferences : Preferences)
    (location : Location) (visitedNames : List String) (num_visits : NumVisits)
    (places : List Place)
    (hpref : body.preferences = some preferences) (hloc : body.location = some location)
    (hcuisines : preferences.cuisines = [])
    (hhistory : (visitHistoryPhase w).1 = some (visitedNames, num_visits))
    (hplaces : (obtainPlaces w
        (cacheKeyOf location (radiusOf preferences) (typesOf w.rand preferences num_visits).1)
        (requestBodyOf location (radiusOf preferences)
          (typesOf w.rand preferences num_visits).1)).1 = some places)
    (htwo : 2 ≤ ((filtered_places preferences.budget (preferences.minRating.getD (7 / 2))
        places).filter (fun p => decide (placeName p ∉ visitedNames))).length) :
    ∃ p q : Place,
      (pick w body).response = some ⟨200, .restaurants [toRestaurant p, toRestaurant q]⟩ ∧
      p ∈ filtered_places preferences.budget (preferences.minRating.getD (7 / 2)) places ∧
      q ∈ filtered_places preferences.budget (preferences.minRating.getD (7 / 2)) places ∧
      p ∈ (sorted_places visitedNames []
        (filtered_places preferences.budget (preferences.minRating.getD (7 / 2)) places)).take 10 ∧
      q ∈ (sorted_places visitedNames []
        (filtered_places preferences.budget (preferences.minRating.getD (7 / 2)) places)).take 10 ∧
      ((10 ≤ ((filtered_places preferences.budget (preferences.minRating.getD (7 / 2))
            places).filter (fun p => decide (placeName p ∉ visitedNames))).length ∨
          ∀ x ∈ filtered_places preferences.budget (preferences.minRating.getD (7 / 2)) places,
            placeName x ∉ visitedNames) →
        placeName p ∉ visitedNames ∧ placeName q ∉ visitedNames) := by
  set filtered := filtered_places preferences.budget (preferences.minRating.getD (7 / 2)) places
    with hfiltered
  set sorted := sorted_places visitedNames [] filtered with hsorted
  have hperm : sorted.Perm filtered := arraySort_perm _ _
  have hlen : 2 ≤ sorted.length := by
    rw [hperm.length_eq]
    exact le_trans htwo (List.length_filter_le _ _)
  have hne : places.length ≠ 0 := by
    intro h0
    have : places = [] := List.length_eq_zero.mp h0
    simp [hfiltered, filtered_places, this] at htwo
  have htop : (topTwo w.rand (typesOf w.rand preferences num_visits).2 sorted).length = 2 := by
    rw [topTwo_length]; omega
  obtain ⟨p, q, hpq⟩ := List.length_eq_two.mp htop
  have hsub := topTwo_subset w.rand (typesOf w.rand preferences num_visits).2 sorted
  rw [hpq] at hsub
  have hp : p ∈ sorted.take 10 := hsub p (by simp)
  have hq : q ∈ sorted.take 10 := hsub q (by simp)
  refine ⟨p, q, ?_, hperm.subset (List.mem_of_mem_take hp),
    hperm.subset (List.mem_of_mem_take hq), hp, hq, ?_⟩
  · rw [pick_run w body preferences location visitedNames num_visits hpref hloc hhistory]
    simp only
    rw [pickTry_response w preferences location visitedNames num_visits places hplaces]
    unfold respond
    rw [if_neg hne, hcuisines]
    simp only [← hfiltered, ← hsorted, hpq, List.map_cons, List.map_nil]
  · rintro (hten | hall)
    · have hpair : sorted.Pairwise (fun a b =>
          ¬ (decide (placeName a ∉ visitedNames) = false ∧
             decide (placeName b ∉ visitedNames) = true)) :=
        (sorted_places_pairwise visitedNames [] filtered).imp (fun {a b} h => by simpa using h)
      have hcount : 10 ≤ (sorted.filter (fun p => decide (placeName p ∉ visitedNames))).length := by
        rw [(hperm.filter _).length_eq]; exact hten
      have hall := take_of_pairwise_split (fun p => decide (placeName p ∉ visitedNames)) sorted
        hpair 10 hcount
      exact ⟨by simpa using hall p hp, by simpa using hall q hq⟩
    · exact ⟨hall p (hperm.subset (List.mem_of_mem_take hp)),
        hall q (hperm.subset (List.mem_of_mem_take hq))⟩

/-- C2 (witness): the amended statement at the scenario of the specification. -/
theorem C2_two_places_from_filter_witness :
    2 ≤ ((filtered_places scenarioPreferences.budget
        (scenarioPreferences.minRating.getD (7 / 2)) scenarioPlaces).filter
        (fun p => decide (placeName p ∉ scenarioVisited))).length ∧
    ∃ p q : Place,
      (pick (scenarioWorld scenarioAnswer) scenarioBody).response =
        some ⟨200, .restaurants [toRestaurant p, toRestaurant q]⟩ ∧
      p ∈ filtered_places scenarioPreferences.budget
        (scenarioPreferences.minRating.getD (7 / 2)) scenarioPlaces ∧
      q ∈ filtered_places scenarioPreferences.budget
        (scenarioPreferences.minRating.getD (7 / 2)) scenarioPlaces := by
  obtain ⟨p, q, h1, h2, h3, -⟩ :=
    C2_two_places_from_filter (scenarioWorld scenarioAnswer) scenarioBody scenarioPreferences
      scenarioLocation scenarioVisited (.queryResult 3) scenarioPlaces rfl rfl rfl rfl rfl
      scenario_two_unvisited
  exact ⟨scenario_two_unvisited, p, q, h1, h2, h3⟩

/-- C2 (counterexample): in the scenario of the specification (twelve provider places,
eight pass the filter, three of the eight are visited, so five non-visited places pass)
the shuffle of the eight candidates brings the visited place V3 into the answer: the
response is 200 with the restaurants N1 and V3, so it is not a pair of non-visited
places. -/
theorem C2_visited_place_returned :
    scenarioPreferences.cuisines = [] ∧
    scenarioPlaces.length = 12 ∧
    (filtered_places scenarioPreferences.budget (scenarioPreferences.minRating.getD (7 / 2))
      scenarioPlaces).length = 8 ∧
    ((filtered_places scenarioPreferences.budget (scenarioPreferences.minRating.getD (7 / 2))
      scenarioPlaces).filter (fun p => decide (placeName p ∈ scenarioVisited))).length = 3 ∧
    (pick (scenarioWorld scenarioAnswer) scenarioBody).response =
      some ⟨200, .restaurants
        [toRestaurant (mkPlace "N1" (9 / 2) (some "PRICE_LEVEL_MODERATE")),
         toRestaurant (mkPlace "V3" (9 / 2) (some "PRICE_LEVEL_MODERATE"))]⟩ ∧
    placeName (mkPlace "V3" (9 / 2) (some "PRICE_LEVEL_MODERATE")) ∈ scenarioVisited ∧
    ¬ ∃ p q : Place, placeName p ∉ scenarioVisited ∧ placeName q ∉ scenarioVisited ∧
      (pick (scenarioWorld scenarioAnswer) scenarioBody).response =
        some ⟨200, .restaurants [toRestaurant p, toRestaurant q]⟩ := by
  have hf : filtered_places scenarioPreferences.budget
      (scenarioPreferences.minRating.getD (7 / 2)) scenarioPlaces = scenarioFiltered :=
    scenario_filtered
  have hV3 : placeName (mkPlace "V3" (9 / 2) (some "PRICE_LEVEL_MODERATE")) ∈ scenarioVisited := by
    simp [placeName, strOr, mkPlace, barePlace, scenarioVisited]
  refine ⟨rfl, rfl, by rw [hf]; rfl, ?_, scenario_pick, hV3, ?_⟩
  · rw [hf]
    simp [scenarioFiltered, scenarioVisited, placeName, strOr, mkPlace, barePlace,
      List.filter_cons]
  · rintro ⟨p, q, -, hq, hresp⟩
    rw [scenario_pick] at hresp
    simp only [Option.some.injEq, Response.mk.injEq, ResponseBody.restaurants.injEq,
      List.cons.injEq, true_and, and_true] at hresp
    have hname : placeName q = placeName (mkPlace "V3" (9 / 2) (some "PRICE_LEVEL_MODERATE")) := by
      rw [← toRestaurant_name, ← toRestaurant_name, hresp.2]
    exact hq (hname ▸ hV3)

/-- C3 (the code departs from the claim): with empty cuisines, minRating = 4, distance =
2000 and no visits, when the two calls of Math.random() return 0 and 99/100 the second
index is floor(99/100 * 23 + 24) = 46, one past the last entry of TYPES (which has 46
entries, at indices 0 to 45): the selected type-set is [afghani_restaurant, undefined]. -/
theorem C3_second_type_undefined :
    TYPES.length = 46 ∧
    ¬ ((4 : ℚ) > 47 / 10 ∨ (some 2000 : Option ℤ) = some 500) ∧
    ((NumVisits.number 0).gt 5 && (NumVisits.number 0).lt 20) = false ∧
    getRandomIntInclusive (drawsOf [0, 99 / 100] 1) 24 46 = 46 ∧
    arrayAt TYPES 46 = none ∧
    (empty_choice (drawsOf [0, 99 / 100]) 4 (some 2000) (.number 0)).1
      = some [some "afghani_restaurant", none] := by
  have e0 : getRandomIntInclusive (drawsOf [0, 99 / 100] 0) 0 23 = 0 := by
    apply getRandomIntInclusive_eq <;> rw [drawsOf_val] <;> norm_num
  have e1 : getRandomIntInclusive (drawsOf [0, 99 / 100] 1) 24 46 = 46 := by
    apply getRandomIntInclusive_eq <;> rw [drawsOf_val] <;> norm_num
  have hr : ¬ ((4 : ℚ) > 47 / 10 ∨ (some 2000 : Option ℤ) = some 500) := by norm_num
  have hv : ((NumVisits.number 0).gt 5 && (NumVisits.number 0).lt 20) = false := by
    norm_num [NumVisits.gt, NumVisits.lt, NumVisits.toNumber]
  refine ⟨rfl, hr, hv, e1, rfl, ?_⟩
  simp only [empty_choice, if_neg hr, e0, e1, hv]
  rfl

/-- C4 (the code departs from the claim): with empty cuisines, minRating = 4, distance =
2000 and no visits, when the two calls of Math.random() return 9/10 and 0 the first index
is floor(9/10 * 24) = 21 and the second is 24: the selected type-set is
[bakery, brunch_restaurant], whose first entry is a food-style type of the client list
TYPES and not one of the twenty entries of REGIONS. -/
theorem C4_first_type_food_style :
    TYPES = App.REGIONS ++ App.TYPES ∧ App.REGIONS.length = 20 ∧ App.TYPES.length = 26 ∧
    getRandomIntInclusive (drawsOf [9 / 10, 0] 0) 0 23 = 21 ∧
    (empty_choice (drawsOf [9 / 10, 0]) 4 (some 2000) (.number 0)).1
      = some [some "bakery", some "brunch_restaurant"] ∧
    "bakery" ∉ App.REGIONS ∧ "bakery" ∈ App.TYPES := by
  have e0 : getRandomIntInclusive (drawsOf [9 / 10, 0] 0) 0 23 = 21 := by
    apply getRandomIntInclusive_eq <;> rw [drawsOf_val] <;> norm_num
  have e1 : getRandomIntInclusive (drawsOf [9 / 10, 0] 1) 24 46 = 24 := by
    apply getRandomIntInclusive_eq <;> rw [drawsOf_val] <;> norm_num
  have hr : ¬ ((4 : ℚ) > 47 / 10 ∨ (some 2000 : Option ℤ) = some 500) := by norm_num
  have hv : ((NumVisits.number 0).gt 5 && (NumVisits.number 0).lt 20) = false := by
    norm_num [NumVisits.gt, NumVisits.lt, NumVisits.toNumber]
  refine ⟨rfl, rfl, rfl, e0, ?_, by simp [App.REGIONS], by simp [App.TYPES]⟩
  simp only [empty_choice, if_neg hr, e0, e1, hv]
  rfl

/-- C5 (amended): when the SELECT on place_cache rejects, /pick answers 500 with the error
'Failed to pick a restaurant.'; the only calls made after the visit history are that
SELECT: the provider is not called and nothing is written to the cache. -/
theorem C5_lookup_failure_fails_request (w : World) (body : Body)
    (preferences : Preferences) (location : Location) (visitedNames : List String)
    (num_visits : NumVisits) (e : String)
    (hpref : body.preferences = some preferences) (hloc : body.location = some location)
    (hhistory : (visitHistoryPhase w).1 = some (visitedNames, num_visits))
    (hsel : w.cacheSelect
      (cacheKeyOf location (radiusOf preferences) (typesOf w.rand preferences num_visits).1)
        = .error e) :
    (pick w body).response = some ⟨500, .error "Failed to pick a restaurant."⟩ ∧
    (pick w body).effects = (visitHistoryPhase w).2 ++
      [.cacheSelect (cacheKeyOf location (radiusOf preferences)
        (typesOf w.rand preferences num_visits).1)] ∧
    (∀ b, Effect.searchNearby b ∉ (pick w body).effects) ∧
    (∀ k ps, Effect.cacheInsert k ps ∉ (pick w body).effects) := by
  rw [pick_run w body preferences location visitedNames num_visits hpref hloc hhistory,
    pickTry_of_lookup_failure w preferences location visitedNames num_visits e hsel]
  refine ⟨rfl, rfl, fun b hb => ?_, fun k ps hb => ?_⟩
  · simp only [List.mem_append, List.mem_singleton] at hb
    rcases hb with hb | hb
    · rcases visitHistoryPhase_effects w _ hb with ⟨u, hu⟩ | ⟨u, hu⟩ <;> cases hu
    · cases hb
  · simp only [List.mem_append, List.mem_singleton] at hb
    rcases hb with hb | hb
    · rcases visitHistoryPhase_effects w _ hb with ⟨u, hu⟩ | ⟨u, hu⟩ <;> cases hu
    · cases hb

/-- C5 (witness): the amended statement at the scenario of the specification with a
failing SELECT. -/
theorem C5_lookup_failure_fails_request_witness :
    (pick scenarioWorldLookupFails scenarioBody).response =
      some ⟨500, .error "Failed to pick a restaurant."⟩ ∧
    (∀ b, Effect.searchNearby b ∉ (pick scenarioWorldLookupFails scenarioBody).effects) :=
  have h := C5_lookup_failure_fails_request scenarioWorldLookupFails scenarioBody
    scenarioPreferences scenarioLocation scenarioVisited (.queryResult 3)
    "connection terminated" rfl rfl rfl rfl
  ⟨h.1, h.2.2.1⟩

/-- C5 (counterexample): in the scenario of the specification a cache miss is answered
with status 200 and two restaurants; when instead the SELECT rejects, the answer is
status 500 and the provider is never called. -/
theorem C5_lookup_failure_not_a_miss :
    (pick (scenarioWorld scenarioAnswer) scenarioBody).response =
      some ⟨200, .restaurants
        [toRestaurant (mkPlace "N1" (9 / 2) (some "PRICE_LEVEL_MODERATE")),
         toRestaurant (mkPlace "V3" (9 / 2) (some "PRICE_LEVEL_MODERATE"))]⟩ ∧
    (pick scenarioWorldLookupFails scenarioBody).response =
      some ⟨500, .error "Failed to pick a restaurant."⟩ ∧
    (pick scenarioWorldLookupFails scenarioBody).response ≠
      (pick (scenarioWorld scenarioAnswer) scenarioBody).response ∧
    (pick scenarioWorldLookupFails scenarioBody).effects =
      [.visitCountQuery 7, .visitHistoryQuery 7,
       .cacheSelect (cacheKeyOf scenarioLocation 2000
         (some [some "afghani_restaurant", some "brunch_restaurant"]))] := by
  have hfail : pick scenarioWorldLookupFails scenarioBody =
      ⟨some failedToPick, [.visitCountQuery 7, .visitHistoryQuery 7,
        .cacheSelect (cacheKeyOf scenarioLocation 2000
          (some [some "afghani_restaurant", some "brunch_restaurant"]))]⟩ := by
    rw [pick_run scenarioWorldLookupFails scenarioBody scenarioPreferences scenarioLocation
      scenarioVisited (.queryResult 3) rfl rfl rfl,
      pickTry_of_lookup_failure scenarioWorldLookupFails scenarioPreferences scenarioLocation
        scenarioVisited (.queryResult 3) "connection terminated" rfl,
      scenario_history_lookupFails]
    rw [show scenarioWorldLookupFails.rand = (scenarioWorld scenarioAnswer).rand from rfl,
      scenario_typesOf]
    rfl
  refine ⟨scenario_pick, by rw [hfail]; rfl, ?_, by rw [hfail]⟩
  rw [hfail, scenario_pick]
  simp [failedToPick]


/-- C6 (amended): when the provider call succeeds with at least one place and the INSERT
into place_cache rejects, /pick answers 500 with the error 'Failed to pick a restaurant.',
after the SELECT, the provider call and the failed INSERT; the places of the provider are
not returned. -/
theorem C6_insert_failure_fails_request (w : World) (body : Body)
    (preferences : Preferences) (location : Location) (visitedNames : List String)
    (num_visits : NumVisits) (data : ProviderResponse) (places : List Place) (e : String)
    (hpref : body.preferences = some preferences) (hloc : body.location = some location)
    (hhistory : (visitHistoryPhase w).1 = some (visitedNames, num_visits))
    (hsel : w.cacheSelect
      (cacheKeyOf location (radiusOf preferences) (typesOf w.rand preferences num_visits).1)
        = .ok none)
    (hfetch : w.searchNearby
      (requestBodyOf location (radiusOf preferences) (typesOf w.rand preferences num_visits).1)
        = .ok data)
    (hdata : data.places = some places) (hne : places ≠ [])
    (hins : w.cacheInsert
      (cacheKeyOf location (radiusOf preferences) (typesOf w.rand preferences num_visits).1)
        places = .error e) :
    (pick w body).response = some ⟨500, .error "Failed to pick a restaurant."⟩ ∧
    (pick w body).effects = (visitHistoryPhase w).2 ++
      [.cacheSelect
        (cacheKeyOf location (radiusOf preferences) (typesOf w.rand preferences num_visits).1),
       .searchNearby
        (requestBodyOf location (radiusOf preferences)
          (typesOf w.rand preferences num_visits).1),
       .cacheInsert
        (cacheKeyOf location (radiusOf preferences) (typesOf w.rand preferences num_visits).1)
        places] := by
  rw [pick_run w body preferences location visitedNames num_visits hpref hloc hhistory,
    pickTry_of_insert_failure w preferences location visitedNames num_visits data places e
      hsel hfetch hdata hne hins]
  exact ⟨rfl, rfl⟩

/-- C6 (witness): the amended statement at the scenario of the specification with a
failing INSERT. -/
theorem C6_insert_failure_fails_request_witness :
    scenarioAnswer.places = some scenarioPlaces ∧ scenarioPlaces ≠ [] ∧
    (pick scenarioWorldInsertFails scenarioBody).response =
      some ⟨500, .error "Failed to pick a restaurant."⟩ :=
  ⟨rfl, by decide,
    (C6_insert_failure_fails_request scenarioWorldInsertFails scenarioBody
      scenarioPreferences scenarioLocation scenarioVisited (.queryResult 3) scenarioAnswer
      scenarioPlaces "connection terminated" rfl rfl rfl rfl rfl rfl
      (by simp [scenarioPlaces]) rfl).1⟩

/-- C6 (counterexample): in the scenario of the specification the provider returns twelve
places; when the INSERT succeeds the answer is status 200 with two restaurants, and when
the INSERT rejects the answer is status 500. -/
theorem C6_insert_failure_is_500 :
    scenarioPlaces.length = 12 ∧
    (pick (scenarioWorld scenarioAnswer) scenarioBody).response =
      some ⟨200, .restaurants
        [toRestaurant (mkPlace "N1" (9 / 2) (some "PRICE_LEVEL_MODERATE")),
         toRestaurant (mkPlace "V3" (9 / 2) (some "PRICE_LEVEL_MODERATE"))]⟩ ∧
    (pick scenarioWorldInsertFails scenarioBody).response =
      some ⟨500, .error "Failed to pick a restaurant."⟩ := by
  refine ⟨rfl, scenario_pick, ?_⟩
  rw [pick_run scenarioWorldInsertFails scenarioBody scenarioPreferences scenarioLocation
      scenarioVisited (.queryResult 3) rfl rfl rfl,
    pickTry_of_insert_failure scenarioWorldInsertFails scenarioPreferences scenarioLocation
      scenarioVisited (.queryResult 3) scenarioAnswer scenarioPlaces "connection terminated"
      rfl rfl rfl (by simp [scenarioPlaces]) rfl]
  rfl

/-- C7 (the code departs from the claim): in the scenario of the specification, when the
provider returns a single place and that place is closed, the filter removes it and
/pick answers 200 with an empty restaurants list; when the provider returns no place at
all the answer is 404. -/
theorem C7_all_filtered_out_is_200 :
    filtered_places ["$", "$$"] 4 [closedPlace] = [] ∧
    (pick (scenarioWorld ⟨200, none, some [closedPlace]⟩) scenarioBody).response =
      some ⟨200, .restaurants []⟩ ∧
    (pick (scenarioWorld ⟨200, none, some []⟩) scenarioBody).response =
      some ⟨404, .error "No matching restaurants found nearby"⟩ := by
  have hf : filtered_places ["$", "$$"] 4 [closedPlace] = [] := by
    simp [filtered_places, passesFilter, closedPlace, mkPlace, barePlace]
  refine ⟨hf, ?_, ?_⟩
  · rw [scenario_respond_of]
    show some (respond (drawsOf scenarioDraws) 2 scenarioVisited [] ["$", "$$"] 4 [closedPlace]) = _
    have hne : ¬ [closedPlace].length = 0 := by simp
    simp only [respond, if_neg hne, hf]
    rfl
  · rw [scenario_respond_of]
    rfl

/-- C8 (the code departs from the claim): in the scenario of the specification, when the
provider answers with HTTP status 403 and a JSON body that carries an error object and no
places property, /pick answers 404 'No matching restaurants found nearby', the same
response as for a successful provider response without places; only a rejected fetch
leads to status 500. -/
theorem C8_provider_error_is_404 :
    deniedAnswer.status = 403 ∧ deniedAnswer.error = some "PERMISSION_DENIED" ∧
    deniedAnswer.places = none ∧
    (pick (scenarioWorld deniedAnswer) scenarioBody).response =
      some ⟨404, .error "No matching restaurants found nearby"⟩ ∧
    (pick (scenarioWorld deniedAnswer) scenarioBody).response =
      (pick (scenarioWorld ⟨200, none, none⟩) scenarioBody).response ∧
    (pick scenarioWorldFetchRejects scenarioBody).response =
      some ⟨500, .error "Failed to pick a restaurant."⟩ := by
  have h1 : (pick (scenarioWorld deniedAnswer) scenarioBody).response =
      some ⟨404, .error "No matching restaurants found nearby"⟩ := by
    rw [scenario_respond_of]
    rfl
  have h2 : (pick (scenarioWorld ⟨200, none, none⟩) scenarioBody).response =
      some ⟨404, .error "No matching restaurants found nearby"⟩ := by
    rw [scenario_respond_of]
    rfl
  refine ⟨rfl, rfl, rfl, h1, by rw [h1, h2], ?_⟩
  rw [pick_run scenarioWorldFetchRejects scenarioBody scenarioPreferences scenarioLocation
      scenarioVisited (.queryResult 3) rfl rfl rfl]
  simp only [pickTry, obtainPlaces, scenarioWorldFetchRejects, scenarioWorld]
  rfl

/-- C9: in the ranked output no visited place stands before a non-visited place, for
every filtered list, every set of visited names and every list of cuisines; the name of
a place is displayName.text, or 'Unknown' when that is absent. -/
theorem C9_visited_after_unvisited (visitedNames cuisines : List String)
    (filtered : List Place) :
    (sorted_places visitedNames cuisines filtered).Pairwise
        (fun a b => ¬ (placeName a ∈ visitedNames ∧ placeName b ∉ visitedNames)) ∧
    ∀ (i j : ℕ) (hij : i < j) (hj : j < (sorted_places visitedNames cuisines filtered).length),
      placeName ((sorted_places visitedNames cuisines filtered)[i]) ∈ visitedNames →
        placeName ((sorted_places visitedNames cuisines filtered)[j]) ∈ visitedNames := by
  have hpair := sorted_places_pairwise visitedNames cuisines filtered
  refine ⟨hpair, fun i j hij hj hi => ?_⟩
  by_contra hnot
  exact List.pairwise_iff_getElem.mp hpair i j (by omega) hj hij ⟨hi, hnot⟩

/-- C10: the ranked output is a permutation of the filter output, and for every visited
status and every matched-cuisine count the places with that status and count stand in
the ranked output in the same order as in the filter output. -/
theorem C10_ranking_stable (visitedNames cuisines : List String) (filtered : List Place) :
    (sorted_places visitedNames cuisines filtered).Perm filtered ∧
    ∀ (visited : Bool) (count : ℕ),
      (sorted_places visitedNames cuisines filtered).filter
          (fun p => decide (decide (placeName p ∈ visitedNames) = visited ∧
            matchCount cuisines p = count))
        = filtered.filter
          (fun p => decide (decide (placeName p ∈ visitedNames) = visited ∧
            matchCount cuisines p = count)) := by
  refine ⟨arraySort_perm _ _, fun visited count => filter_arraySort _ _ ?_ _⟩
  intro a b ha hb
  simp only [decide_eq_true_eq] at ha hb
  rw [comparator_same_key visitedNames cuisines a b (by rw [ha.1, hb.1]) (by rw [ha.2, hb.2])]

/-- C11: when the list of explicit cuisines is not empty, any two places of the ranked
output with the same visited status stand in non-increasing order of the number of their
types (absent types counting as none) that are among the preferred cuisines; a place
without types has zero matches. -/
theorem C11_more_matches_first (visitedNames cuisines : List String) (filtered : List Place)
    (hne : cuisines ≠ []) :
    (sorted_places visitedNames cuisines filtered).Pairwise
      (fun a b => (placeName a ∈ visitedNames ↔ placeName b ∈ visitedNames) →
        ((b.types.getD []).filter (fun t => decide (t ∈ cuisines))).length ≤
          ((a.types.getD []).filter (fun t => decide (t ∈ cuisines))).length) ∧
    ∀ p : Place, p.types = none → matchCount cuisines p = 0 := by
  refine ⟨?_, fun p hp => ?_⟩
  · refine (arraySort_pairwise _ (comparator_total visitedNames cuisines)
      (comparator_trans visitedNames cuisines) filtered).imp (fun {a b} hab hv => ?_)
    rw [← matchCount_of_ne_nil cuisines a hne, ← matchCount_of_ne_nil cuisines b hne]
    exact comparator_matches visitedNames cuisines a b hab hv
  · rw [matchCount_of_ne_nil cuisines p hne, hp]
    rfl

/-- C11 (witness): two explicit cuisines and a filter output whose places match them
once (A), twice (V1, visited), twice (B) and not at all (C); the ranked output is B, A, C,
V1, and the order of the input does not have the property. -/
theorem C11_more_matches_first_witness :
    ["thai_restaurant", "cafe"] ≠ [] ∧
    sorted_places scenarioVisited ["thai_restaurant", "cafe"] typedFiltered =
      [typedPlace "B" ["thai_restaurant", "cafe", "deli"],
       typedPlace "A" ["cafe", "bakery"],
       mkPlace "C" (9 / 2) (some "PRICE_LEVEL_MODERATE"),
       typedPlace "V1" ["thai_restaurant", "cafe"]] ∧
    (sorted_places scenarioVisited ["thai_restaurant", "cafe"] typedFiltered).map
      (fun p => (decide (placeName p ∈ scenarioVisited),
        ((p.types.getD []).filter
          (fun t => decide (t ∈ ["thai_restaurant", "cafe"]))).length)) =
      [(false, 2), (false, 1), (false, 0), (true, 2)] ∧
    (sorted_places scenarioVisited ["thai_restaurant", "cafe"] typedFiltered).Pairwise
      (fun a b => (placeName a ∈ scenarioVisited ↔ placeName b ∈ scenarioVisited) →
        ((b.types.getD []).filter
            (fun t => decide (t ∈ ["thai_restaurant", "cafe"]))).length ≤
          ((a.types.getD []).filter
            (fun t => decide (t ∈ ["thai_restaurant", "cafe"]))).length) ∧
    ¬ typedFiltered.Pairwise
      (fun a b => (placeName a ∈ scenarioVisited ↔ placeName b ∈ scenarioVisited) →
        ((b.types.getD []).filter
            (fun t => decide (t ∈ ["thai_restaurant", "cafe"]))).length ≤
          ((a.types.getD []).filter
            (fun t => decide (t ∈ ["thai_restaurant", "cafe"]))).length) := by
  refine ⟨by simp, typedFiltered_sorted, ?_,
    (C11_more_matches_first scenarioVisited ["thai_restaurant", "cafe"] typedFiltered
      (by simp)).1, ?_⟩
  · rw [typedFiltered_sorted]
    simp [placeName, strOr, typedPlace, mkPlace, barePlace, scenarioVisited, List.filter_cons]
  · intro h
    have hAB := (List.pairwise_cons.mp h).1 (typedPlace "B" ["thai_restaurant", "cafe", "deli"])
      (by simp [typedFiltered])
    simp [placeName, strOr, typedPlace, mkPlace, barePlace, scenarioVisited,
      List.filter_cons] at hAB

/-- C12: a place whose priceLevel is one of the four keys of priceLevelMap is in the
filter output exactly when it is in the input, its businessStatus is OPERATIONAL, its
rating (0 when absent) is at least minRating, and budgets is empty or contains the symbol
of the tier. -/
theorem C12_filter_characterisation (budget : List String) (minRating : ℚ)
    (places : List Place) (place : Place) (key symbol : String)
    (htier : (key, symbol) ∈ [("PRICE_LEVEL_INEXPENSIVE", "$"), ("PRICE_LEVEL_MODERATE", "$$"),
      ("PRICE_LEVEL_EXPENSIVE", "$$$"), ("PRICE_LEVEL_VERY_EXPENSIVE", "$$$$")])
    (hprice : place.priceLevel = some key) :
    place ∈ filtered_places budget minRating places ↔
      place ∈ places ∧ place.businessStatus = some "OPERATIONAL" ∧
        place.rating.getD 0 ≥ minRating ∧ (budget = [] ∨ symbol ∈ budget) := by
  have hmap : includes budget (priceLevelMap (strOr place.priceLevel "$$")) = true ↔
      symbol ∈ budget := by
    simp only [List.mem_cons, Prod.mk.injEq, List.mem_singleton, List.not_mem_nil,
      or_false] at htier
    rcases htier with ⟨rfl, rfl⟩ | ⟨rfl, rfl⟩ | ⟨rfl, rfl⟩ | ⟨rfl, rfl⟩ <;>
      simp [hprice, strOr, priceLevelMap, includes]
  unfold filtered_places
  rw [List.mem_filter, passesFilter_iff, hmap]
  tauto

/-- C12 (witness): the statement for the place N1 of the scenario, of tier $$. -/
theorem C12_filter_characterisation_witness :
    (mkPlace "N1" (9 / 2) (some "PRICE_LEVEL_MODERATE")).priceLevel =
      some "PRICE_LEVEL_MODERATE" ∧
    (mkPlace "N1" (9 / 2) (some "PRICE_LEVEL_MODERATE") ∈
        filtered_places ["$", "$$"] 4 scenarioPlaces ↔
      mkPlace "N1" (9 / 2) (some "PRICE_LEVEL_MODERATE") ∈ scenarioPlaces ∧
      (mkPlace "N1" (9 / 2) (some "PRICE_LEVEL_MODERATE")).businessStatus =
        some "OPERATIONAL" ∧
      (mkPlace "N1" (9 / 2) (some "PRICE_LEVEL_MODERATE")).rating.getD 0 ≥ 4 ∧
      (["$", "$$"] = [] ∨ "$$" ∈ ["$", "$$"])) :=
  ⟨rfl, C12_filter_characterisation ["$", "$$"] 4 scenarioPlaces
    (mkPlace "N1" (9 / 2) (some "PRICE_LEVEL_MODERATE")) "PRICE_LEVEL_MODERATE" "$$"
    (by simp) rfl⟩

/-- C13: a place whose businessStatus is not OPERATIONAL (closed, unspecified or absent)
is never in the filter output, whatever its rating and price level. -/
theorem C13_only_operational (budget : List String) (minRating : ℚ) (places : List Place)
    (place : Place) (hstatus : place.businessStatus ≠ some "OPERATIONAL") :
    place ∉ filtered_places budget minRating places := by
  intro hmem
  unfold filtered_places at hmem
  rw [List.mem_filter, passesFilter_iff] at hmem
  exact hstatus hmem.2.2.2

/-- C13 (witness): the closed place of the scenario is not in the filter output. -/
theorem C13_only_operational_witness :
    closedPlace.businessStatus ≠ some "OPERATIONAL" ∧
    closedPlace ∉ filtered_places ["$", "$$"] 4 scenarioPlaces :=
  ⟨by simp [closedPlace, mkPlace],
    C13_only_operational ["$", "$$"] 4 scenarioPlaces closedPlace
      (by simp [closedPlace, mkPlace])⟩

/-- C14: the filter output is a sublist of the input: every place of the output is a
place of the input, and the places kept stand in their input order. -/
theorem C14_filter_sublist (budget : List String) (minRating : ℚ) (places : List Place) :
    (filtered_places budget minRating places).Sublist places ∧
    ∀ p ∈ filtered_places budget minRating places, p ∈ places := by
  have hsub : (filtered_places budget minRating places).Sublist places :=
    List.filter_sublist places
  exact ⟨hsub, fun p hp => hsub.subset hp⟩

/-- C15: on a ranked list of at most two places the sampler returns the list itself,
whatever the random source yields. -/
theorem C15_short_list_verbatim (rand : ℕ → Draw) (k : ℕ) (ranked : List Place)
    (hlen : ranked.length ≤ 2) : topTwo rand k ranked = ranked := by
  unfold topTwo
  have h10 : ranked.take 10 = ranked := List.take_of_length_le (by omega)
  have hnot : ¬ ranked.length > 2 := by omega
  simp only [h10, if_neg hnot]
  exact List.take_of_length_le hlen

/-- C15 (witness): the statement for a ranked list of two places. -/
theorem C15_short_list_verbatim_witness :
    [closedPlace, mkPlace "N1" (9 / 2) none].length ≤ 2 ∧
    topTwo (drawsOf scenarioDraws) 2 [closedPlace, mkPlace "N1" (9 / 2) none] =
      [closedPlace, mkPlace "N1" (9 / 2) none] :=
  ⟨by simp, C15_short_list_verbatim (drawsOf scenarioDraws) 2
    [closedPlace, mkPlace "N1" (9 / 2) none] (by simp)⟩

/-- C16: for every ranked list, of length n, and every outcome of the random source the
sampler returns min(2, n) places, namely the entries of the ranked list at pairwise
distinct positions below min(10, n); every returned place is among the first ten ranked
places and, the ranked list being the sorted filter output, in the filter output. -/
theorem C16_sampler_bounds (rand : ℕ → Draw) (k : ℕ) (ranked : List Place) :
    (topTwo rand k ranked).length = min 2 ranked.length ∧
    (∃ positions : List ℕ,
      positions.Nodup ∧ positions.length = min 2 ranked.length ∧
      (∀ i ∈ positions, i < min 10 ranked.length) ∧
      (topTwo rand k ranked).map some = positions.map (fun i => ranked[i]?)) ∧
    (∀ p ∈ topTwo rand k ranked, p ∈ ranked.take 10) ∧
    (∀ (visitedNames cuisines : List String) (filtered : List Place),
      ∀ p ∈ topTwo rand k (sorted_places visitedNames cuisines filtered), p ∈ filtered) := by
  refine ⟨topTwo_length rand k ranked, topTwo_positions rand k ranked,
    topTwo_subset rand k ranked, fun visitedNames cuisines filtered p hp => ?_⟩
  exact (arraySort_perm _ filtered).subset
    (List.mem_of_mem_take (topTwo_subset rand k _ p hp))

/-- C17: shuffleArray on an array of n distinct items. In every round both indices are
inside the array; for every outcome of the random source the result is a permutation of
the input and is determined by the sequence of index choices j_n < n, j_(n-1) < n - 1,
..., j_1 < 1, every such sequence being the one of some outcome of the random source.
There are n! choice sequences, two different ones give different orderings, and together
they give exactly the n! permutations of the input; each item is at position 0 for
(n - 1)! of them. -/
theorem C17_fisher_yates_unbiased {α : Type} [DecidableEq α] (array : List α)
    (hdistinct : array.Nodup) :
    (∀ (r : Draw) (c : ℕ), c + 1 ≤ array.length →
      randomIndex r (c + 1) < c + 1 ∧ randomIndex r (c + 1) < array.length ∧
        c < array.length) ∧
    (∀ (rand : ℕ → Draw) (k : ℕ),
      (shuffleArray rand k array).Perm array ∧
      choicesOf rand array.length k ∈ choiceSeqs array.length ∧
      shuffleArray rand k array =
        shuffleWith array.length (choicesOf rand array.length k) array) ∧
    (∀ js : List ℕ, js ∈ choiceSeqs array.length ↔
      js.length = array.length ∧ ∀ i (h : i < js.length), js[i] < array.length - i) ∧
    (∀ js ∈ choiceSeqs array.length, ∃ rand : ℕ → Draw, choicesOf rand array.length 0 = js) ∧
    (choiceSeqs array.length).Nodup ∧
    (choiceSeqs array.length).length = array.length.factorial ∧
    (∀ js ∈ choiceSeqs array.length, ∀ js' ∈ choiceSeqs array.length,
      shuffleWith array.length js array = shuffleWith array.length js' array → js = js') ∧
    ((choiceSeqs array.length).map (fun js => shuffleWith array.length js array)).Perm
      array.permutations ∧
    (∀ x ∈ array,
      ((choiceSeqs array.length).filter
        (fun js => decide ((shuffleWith array.length js array)[0]? = some x))).length =
          (array.length - 1).factorial) := by
  refine ⟨fun r c hc => ?_, fun rand k => ?_, mem_choiceSeqs_iff array.length,
    exists_draws_of_choices array.length, nodup_choiceSeqs array.length,
    length_choiceSeqs array.length, ?_, (shuffleWith_all_perm array hdistinct).2,
    count_choiceSeqs_head array hdistinct⟩
  · have hlt := randomIndex_lt r c
    exact ⟨hlt, by omega, by omega⟩
  · exact ⟨shuffleArray_perm rand k array, choicesOf_mem rand array.length k,
      shuffleLoop_eq_shuffleWith rand array.length k array⟩
  · intro js hjs js' hjs' h
    exact shuffleWith_injective array.length array hdistinct (le_refl _) js js' hjs hjs' h

/-- C17 (witness): for the ten distinct items 0, ..., 9 there are 10! = 3628800 choice
sequences, and each item is at position 0 for 9! = 362880 of them. -/
theorem C17_fisher_yates_unbiased_witness :
    (List.range 10).Nodup ∧
    (choiceSeqs 10).length = 3628800 ∧
    ∀ x ∈ List.range 10,
      ((choiceSeqs 10).filter
        (fun js => decide ((shuffleWith 10 js (List.range 10))[0]? = some x))).length =
          362880 := by
  have h := C17_fisher_yates_unbiased (List.range 10) (List.nodup_range 10)
  rw [List.length_range] at h
  have h10 : Nat.factorial 10 = 3628800 := by decide
  have h9 : Nat.factorial (10 - 1) = 362880 := by decide
  refine ⟨List.nodup_range 10, ?_, ?_⟩
  · rw [h.2.2.2.2.2.1, h10]
  · intro x hx
    rw [h.2.2.2.2.2.2.2.2 x hx, h9]

/-- C18: with empty explicit cuisines and (minRating > 4.7 or distance = 500) the type-set
is ["restaurant"] for every visit count and every outcome of the random source, and it is
the type-set of every cache statement and provider request of the handler. -/
theorem C18_rule1_restaurant (w : World) (body : Body) (preferences : Preferences)
    (hpref : body.preferences = some preferences)
    (hcuisines : preferences.cuisines = [])
    (hrule : preferences.minRating.getD (7 / 2) > 47 / 10 ∨ preferences.distance = some 500) :
    (∀ (rand : ℕ → Draw) (num_visits : NumVisits),
      typesOf rand preferences num_visits = (some [some "restaurant"], 0)) ∧
    ∀ e ∈ (pick w body).effects, ∀ U, e.typeSet = some U → U = some [some "restaurant"] := by
  refine ⟨fun rand num_visits => typesOf_rule1 rand preferences num_visits hcuisines hrule, ?_⟩
  exact pick_typeSet w body preferences hpref _
    (fun num_visits => by rw [typesOf_rule1 w.rand preferences num_visits hcuisines hrule])

/-- C18 (witness): the statement for minRating = 4.8 and distance = 1000. -/
theorem C18_rule1_restaurant_witness :
    (ratedPreferences.minRating.getD (7 / 2) > 47 / 10 ∨
      ratedPreferences.distance = some 500) ∧
    (∀ (rand : ℕ → Draw) (num_visits : NumVisits),
      typesOf rand ratedPreferences num_visits = (some [some "restaurant"], 0)) ∧
    ∀ e ∈ (pick (scenarioWorld scenarioAnswer) ⟨some ratedPreferences, some scenarioLocation⟩).effects,
      ∀ U, e.typeSet = some U → U = some [some "restaurant"] :=
  have hrule : ratedPreferences.minRating.getD (7 / 2) > 47 / 10 ∨
      ratedPreferences.distance = some 500 := by
    left
    norm_num [ratedPreferences]
  ⟨hrule, C18_rule1_restaurant (scenarioWorld scenarioAnswer)
    ⟨some ratedPreferences, some scenarioLocation⟩ ratedPreferences rfl rfl hrule⟩

/-- C19 (the code departs from the claim): num_visits holds the Result object of the
query, which compares as NaN, so rule 2 applies to no request. For the user of the
scenario with a visit count of 10 in the store, the type-set of the search is
[afghani_restaurant, brunch_restaurant], which is none of the three DIVERSE_SETS
bundles. -/
theorem C19_rule2_never_applies :
    (∀ (w : World) (visitedNames : List String) (num_visits : NumVisits),
      (visitHistoryPhase w).1 = some (visitedNames, num_visits) →
        (num_visits.gt 5 && num_visits.lt 20) = false) ∧
    scenarioWorldTenVisits.visitCount 7 = .ok 10 ∧
    (visitHistoryPhase scenarioWorldTenVisits).1 = some (scenarioVisited, .queryResult 10) ∧
    typesOf scenarioWorldTenVisits.rand scenarioPreferences (.queryResult 10) =
      (some [some "afghani_restaurant", some "brunch_restaurant"], 2) ∧
    [some "afghani_restaurant", some "brunch_restaurant"] ∉
      DIVERSE_SETS.map (List.map some) ∧
    Effect.searchNearby (requestBodyOf scenarioLocation 2000
        (some [some "afghani_restaurant", some "brunch_restaurant"])) ∈
      (pick scenarioWorldTenVisits scenarioBody).effects := by
  have htypes : typesOf scenarioWorldTenVisits.rand scenarioPreferences (.queryResult 10) =
      (some [some "afghani_restaurant", some "brunch_restaurant"], 2) :=
    scenario_typesOf scenarioAnswer 10
  refine ⟨numVisits_of_history, rfl, rfl, htypes, by simp [DIVERSE_SETS], ?_⟩
  rw [pick_run scenarioWorldTenVisits scenarioBody scenarioPreferences scenarioLocation
    scenarioVisited (.queryResult 10) rfl rfl rfl]
  simp only [pickTry, obtainPlaces, htypes]
  simp [scenarioWorldTenVisits, scenarioWorld, scenarioAnswer, scenarioPlaces, radiusOf,
    scenarioPreferences]

/-- C20: when the explicit cuisines list is not empty, the type-set is that list, in its
order, whatever minRating, distance, the visit count and the random source are, and it
is the type-set of every cache statement and provider request of the handler. -/
theorem C20_explicit_cuisines_used (w : World) (body : Body) (preferences : Preferences)
    (hpref : body.preferences = some preferences) (hne : preferences.cuisines ≠ []) :
    (∀ (rand : ℕ → Draw) (num_visits : NumVisits),
      (typesOf rand preferences num_visits).1 = some (preferences.cuisines.map some)) ∧
    ∀ e ∈ (pick w body).effects, ∀ U, e.typeSet = some U →
      U = some (preferences.cuisines.map some) :=
  ⟨fun rand num_visits => typesOf_cuisines rand preferences num_visits hne,
    pick_typeSet w body preferences hpref _
      (fun num_visits => typesOf_cuisines w.rand preferences num_visits hne)⟩

/-- C20 (witness): the statement for the cuisines thai_restaurant and cafe. -/
theorem C20_explicit_cuisines_used_witness :
    cuisinePreferences.cuisines ≠ [] ∧
    ∀ e ∈ (pick (scenarioWorld scenarioAnswer)
        ⟨some cuisinePreferences, some scenarioLocation⟩).effects,
      ∀ U, e.typeSet = some U → U = some [some "thai_restaurant", some "cafe"] :=
  ⟨by simp [cuisinePreferences],
    (C20_explicit_cuisines_used (scenarioWorld scenarioAnswer)
      ⟨some cuisinePreferences, some scenarioLocation⟩ cuisinePreferences rfl
      (by simp [cuisinePreferences])).2⟩

/-- C21: roundCoord with the default precision 0.001 is idempotent on every coordinate,
in particular on every latitude in [-90, 90] and every longitude in [-180, 180], and its
value is an integer multiple of the precision; the same holds for every precision other
than 0. Idempotence survives rounding errors: when the quotient and the product are each
rounded with an error of at most 10^-8 (binary64 arithmetic errs by less than 2 * 10^-10
on numbers up to 10^6) and the precision is a number near 0.001, roundCoord is idempotent
on every coordinate of absolute value at most 180. -/
theorem C21_roundCoord_idempotent :
    (∀ coord : ℚ,
      roundCoord (roundCoord coord (1 / 1000)) (1 / 1000) = roundCoord coord (1 / 1000)) ∧
    (∀ coord precision : ℚ, precision ≠ 0 →
      roundCoord (roundCoord coord precision) precision = roundCoord coord precision) ∧
    (∀ coord : ℚ, ∃ n : ℤ, roundCoord coord (1 / 1000) = (n : ℚ) * (1 / 1000)) ∧
    (∀ (fl : ℚ → ℚ) (c coord : ℚ),
      (∀ x : ℚ, |x| ≤ 1000000 → |fl x - x| ≤ 1 / 100000000) →
      1 / 1001 ≤ c → c ≤ 1 / 999 → |coord| ≤ 180 →
        roundCoordWith fl (roundCoordWith fl coord c) c = roundCoordWith fl coord c) :=
  ⟨fun coord => roundCoord_idempotent coord (1 / 1000) (by norm_num),
    fun coord precision hp => roundCoord_idempotent coord precision hp,
    fun coord => ⟨mathRound (coord / (1 / 1000)), rfl⟩,
    roundCoordWith_idempotent⟩

/-- C22 (amended): the rounding of coord / precision in roundCoord is Math.round, which
follows one tie rule for positive and negative values alike: a value halfway between two
integers goes to the one towards plus infinity (2.5 to 3, -1.5 to -1, -2.5 to -2); every
value goes to an integer at distance at most one half. -/
theorem C22_ties_towards_plus_infinity :
    (∀ m : ℤ, mathRound ((m : ℚ) + 1 / 2) = m + 1) ∧
    (∀ (m : ℤ) (precision : ℚ), precision ≠ 0 →
      roundCoord (((m : ℚ) + 1 / 2) * precision) precision = ((m + 1 : ℤ) : ℚ) * precision) ∧
    (∀ x : ℚ, (mathRound x : ℚ) - 1 / 2 ≤ x ∧ x < (mathRound x : ℚ) + 1 / 2) ∧
    mathRound (5 / 2) = 3 ∧ mathRound (-3 / 2) = -1 ∧ mathRound (-5 / 2) = -2 := by
  refine ⟨mathRound_half, fun m precision hp => ?_, fun x => ?_, ?_, ?_, ?_⟩
  · rw [roundCoord_eq_mathRound, mul_div_assoc, div_self hp, mul_one, mathRound_half]
  · have h1 := Int.floor_le (x + 1 / 2)
    have h2 := Int.lt_floor_add_one (x + 1 / 2)
    unfold mathRound
    constructor <;> linarith
  · have h := mathRound_half 2
    norm_num at h
    exact h
  · have h := mathRound_half (-2)
    norm_num at h
    rw [show (-3 / 2 : ℚ) = -(3 / 2) by norm_num]
    exact h
  · have h := mathRound_half (-3)
    norm_num at h
    rw [show (-5 / 2 : ℚ) = -(5 / 2) by norm_num]
    exact h

/-- C22 (counterexample): the quotient 2.5 is rounded to 3 and not to its even neighbour
2, and the quotient -1.5 is rounded to -1 and not to the neighbour farther from zero, -2:
the rounding is neither round-half-to-even nor round-half-away-from-zero. -/
theorem C22_neither_permitted_rule :
    roundCoord (25 / 10000) (1 / 1000) = 3 * (1 / 1000) ∧
    roundCoord (-15 / 10000) (1 / 1000) = -1 * (1 / 1000) ∧
    ¬ (∀ m : ℤ, mathRound ((m : ℚ) + 1 / 2) = if Even m then m else m + 1) ∧
    ¬ (∀ m : ℤ, mathRound ((m : ℚ) + 1 / 2) = if 0 ≤ m then m + 1 else m) := by
  refine ⟨?_, ?_, fun h => ?_, fun h => ?_⟩
  · have h := mathRound_half 2
    rw [roundCoord_eq_mathRound]
    norm_num at h ⊢
    rw [h]
    norm_num
  · have h := mathRound_half (-2)
    rw [roundCoord_eq_mathRound]
    norm_num at h ⊢
    rw [h]
    norm_num
  · have h2 := h 2
    rw [mathRound_half] at h2
    simp at h2
  · have h2 := h (-2)
    rw [mathRound_half] at h2
    simp at h2

/-- C23: when /pick, after a lookup that finds no row, stores a non-empty provider result
under the key (latRound, lngRound, radius, typesKey), a lookup with the same key on the
resulting table returns these places. In general a lookup returns a row of the table
whose four key columns equal the four parameters and whose cached_at is the greatest
among the rows with that key, and a lookup after a write made later than every row with
the key returns the places written. -/
theorem C23_cache_round_trip (w : World) (table : List CacheRow) (now : ℕ) (body : Body)
    (preferences : Preferences) (location : Location) (visitedNames : List String)
    (num_visits : NumVisits) (data : ProviderResponse) (places : List Place)
    (hpref : body.preferences = some preferences) (hloc : body.location = some location)
    (hhistory : (visitHistoryPhase w).1 = some (visitedNames, num_visits))
    (hmiss : selectCache table
      (cacheKeyOf location (radiusOf preferences) (typesOf w.rand preferences num_visits).1)
        = none)
    (hfetch : w.searchNearby
      (requestBodyOf location (radiusOf preferences) (typesOf w.rand preferences num_visits).1)
        = .ok data)
    (hdata : data.places = some places) (hne : places ≠ []) :
    tableAfter table now (pick (w.onTable table) body).effects =
      insertCache table now
        (cacheKeyOf location (radiusOf preferences) (typesOf w.rand preferences num_visits).1)
        places ∧
    (selectCache (tableAfter table now (pick (w.onTable table) body).effects)
      (cacheKeyOf location (radiusOf preferences)
        (typesOf w.rand preferences num_visits).1)).map (fun row => row.response) =
      some places ∧
    (∀ (rows : List CacheRow) (key : CacheKey) (row : CacheRow),
      selectCache rows key = some row →
        row ∈ rows ∧
        (row.lat_round = key.latRound ∧ row.lng_round = key.lngRound ∧
          row.radius = key.radius ∧ row.types = key.typesKey) ∧
        ∀ r ∈ rows, r.matchesKey key = true → r.cached_at ≤ row.cached_at) ∧
    (∀ (rows : List CacheRow) (time : ℕ) (key : CacheKey) (written : List Place)
      (t : List (Option String)), key.typesKey = some t →
      (∀ r ∈ rows, r.matchesKey key = true → r.cached_at < time) →
        (selectCache (insertCache rows time key written) key).map (fun row => row.response) =
          some written) := by
  have hafter : tableAfter table now (pick (w.onTable table) body).effects =
      insertCache table now
        (cacheKeyOf location (radiusOf preferences) (typesOf w.rand preferences num_visits).1)
        places := by
    rw [pick_onTable_store w table body preferences location visitedNames num_visits data
      places hpref hloc hhistory hmiss hfetch hdata hne, tableAfter_append, tableAfter_history]
    rfl
  obtain ⟨t, ht⟩ := typesOf_isSome w.rand preferences num_visits
  refine ⟨hafter, ?_, ?_, ?_⟩
  · rw [hafter, selectCache_insertCache table now _ places t (by rw [cacheKeyOf]; exact ht)]
    · rfl
    · intro r hr hk
      exact absurd hmiss (selectCache_ne_none table _ r hr hk)
  · intro rows key row hrow
    obtain ⟨hmem, hkey, hmax⟩ := selectCache_spec rows key row hrow
    obtain ⟨h1, h2, h3, s, hs1, hs2⟩ := (matchesKey_iff row key).mp hkey
    exact ⟨hmem, ⟨h1, h2, h3, by rw [hs1, hs2]⟩, hmax⟩
  · intro rows time key written s hs hlater
    rw [selectCache_insertCache rows time key written s hs hlater]
    rfl

/-- C23 (witness): the request of the scenario on an empty table, at time 1. -/
theorem C23_cache_round_trip_witness :
    selectCache []
      (cacheKeyOf scenarioLocation (radiusOf scenarioPreferences)
        (typesOf (scenarioWorld scenarioAnswer).rand scenarioPreferences
          (.queryResult 3)).1) = none ∧
    scenarioPlaces ≠ [] ∧
    (selectCache
      (tableAfter [] 1 (pick ((scenarioWorld scenarioAnswer).onTable []) scenarioBody).effects)
      (cacheKeyOf scenarioLocation (radiusOf scenarioPreferences)
        (typesOf (scenarioWorld scenarioAnswer).rand scenarioPreferences
          (.queryResult 3)).1)).map (fun row => row.response) = some scenarioPlaces :=
  ⟨rfl, by simp [scenarioPlaces],
    (C23_cache_round_trip (scenarioWorld scenarioAnswer) [] 1 scenarioBody scenarioPreferences
      scenarioLocation scenarioVisited (.queryResult 3) scenarioAnswer scenarioPlaces
      rfl rfl rfl rfl rfl rfl (by simp [scenarioPlaces])).2.1⟩

/-- C24: for every request with preferences and location whose visit history was
obtained, the provider is called exactly once when the cache lookup returns no row, and
not at all when it returns a row, in which case the response is made from the cached
places; in particular the provider is not called when the table holds a row written for
coordinates that round to the same grid cell, with the same radius and the same
types. -/
theorem C24_provider_calls (w : World) (body : Body) (preferences : Preferences)
    (location : Location) (visitedNames : List String) (num_visits : NumVisits)
    (hpref : body.preferences = some preferences) (hloc : body.location = some location)
    (hhistory : (visitHistoryPhase w).1 = some (visitedNames, num_visits)) :
    (w.cacheSelect
        (cacheKeyOf location (radiusOf preferences) (typesOf w.rand preferences num_visits).1)
          = .ok none →
      (pick w body).effects.filter Effect.isProviderCall =
        [.searchNearby (requestBodyOf location (radiusOf preferences)
          (typesOf w.rand preferences num_visits).1)]) ∧
    (∀ cached : List Place,
      w.cacheSelect
        (cacheKeyOf location (radiusOf preferences) (typesOf w.rand preferences num_visits).1)
          = .ok (some cached) →
      (pick w body).effects.filter Effect.isProviderCall = [] ∧
      (pick w body).response =
        some (respond w.rand (typesOf w.rand preferences num_visits).2 visitedNames
          preferences.cuisines preferences.budget (preferences.minRating.getD (7 / 2))
          cached)) ∧
    (∀ (table : List CacheRow) (time : ℕ) (earlier : Location) (cached : List Place),
      roundCoord earlier.lat (1 / 1000) = roundCoord location.lat (1 / 1000) →
      roundCoord earlier.lng (1 / 1000) = roundCoord location.lng (1 / 1000) →
      (pick (w.onTable (insertCache table time
          (cacheKeyOf earlier (radiusOf preferences)
            (typesOf w.rand preferences num_visits).1) cached)) body).effects.filter
        Effect.isProviderCall = []) := by
  have hhit : ∀ (v : World) (cached : List Place), v.rand = w.rand →
      visitHistoryPhase v = visitHistoryPhase w →
      v.cacheSelect
        (cacheKeyOf location (radiusOf preferences) (typesOf w.rand preferences num_visits).1)
          = .ok (some cached) →
      (pick v body).effects.filter Effect.isProviderCall = [] ∧
      (pick v body).response =
        some (respond w.rand (typesOf w.rand preferences num_visits).2 visitedNames
          preferences.cuisines preferences.budget (preferences.minRating.getD (7 / 2))
          cached) := by
    intro v cached hrand hhist hsel
    have hh : (visitHistoryPhase v).1 = some (visitedNames, num_visits) := by
      rw [hhist]; exact hhistory
    rw [pick_run v body preferences location visitedNames num_visits hpref hloc hh]
    simp only
    rw [pickTry_effects_eq, hrand, obtainPlaces_of_hit v _ _ cached hsel, List.filter_append,
      hhist, visitHistoryPhase_no_providerCall]
    refine ⟨rfl, ?_⟩
    rw [pickTry_response v preferences location visitedNames num_visits cached
      (by rw [hrand, obtainPlaces_of_hit v _ _ cached hsel]), hrand]
  refine ⟨fun hsel => ?_, fun cached hsel => hhit w cached rfl rfl hsel, ?_⟩
  · rw [pick_run w body preferences location visitedNames num_visits hpref hloc hhistory]
    simp only
    rw [pickTry_effects_eq, List.filter_append, visitHistoryPhase_no_providerCall,
      obtainPlaces_providerCalls_of_miss w _ _ hsel]
    rfl
  · intro table time earlier cached hlat hlng
    obtain ⟨t, ht⟩ := typesOf_isSome w.rand preferences num_visits
    have hkey : cacheKeyOf earlier (radiusOf preferences)
        (typesOf w.rand preferences num_visits).1 =
        cacheKeyOf location (radiusOf preferences)
          (typesOf w.rand preferences num_visits).1 := by
      simp only [cacheKeyOf, hlat, hlng]
    rw [hkey]
    have ht' : (cacheKeyOf location (radiusOf preferences)
        (typesOf w.rand preferences num_visits).1).typesKey = some t := by
      rw [cacheKeyOf]; exact ht
    have hnn := selectCache_ne_none
      (insertCache table time (cacheKeyOf location (radiusOf preferences)
        (typesOf w.rand preferences num_visits).1) cached)
      (cacheKeyOf location (radiusOf preferences) (typesOf w.rand preferences num_visits).1)
      (CacheRow.mk _ _ _ _ cached time)
      (List.mem_append_right _ (List.mem_singleton_self _))
      ((matchesKey_iff _ _).mpr ⟨rfl, rfl, rfl, t, ht', ht'⟩)
    obtain ⟨row, hrow⟩ := Option.ne_none_iff_exists'.mp hnn
    have hsel : (w.onTable (insertCache table time
        (cacheKeyOf location (radiusOf preferences)
          (typesOf w.rand preferences num_visits).1) cached)).cacheSelect
        (cacheKeyOf location (radiusOf preferences)
          (typesOf w.rand preferences num_visits).1) = .ok (some row.response) := by
      show Except.ok ((selectCache _ _).map _) = _
      rw [hrow]
      rfl
    exact (hhit (w.onTable (insertCache table time
      (cacheKeyOf location (radiusOf preferences)
        (typesOf w.rand preferences num_visits).1) cached)) row.response rfl rfl hsel).1

/-- C24 (witness): the request of the scenario, whose cache lookup finds no row, calls
the provider once. -/
theorem C24_provider_calls_witness :
    (scenarioWorld scenarioAnswer).cacheSelect
      (cacheKeyOf scenarioLocation (radiusOf scenarioPreferences)
        (typesOf (scenarioWorld scenarioAnswer).rand scenarioPreferences
          (.queryResult 3)).1) = .ok none ∧
    (pick (scenarioWorld scenarioAnswer) scenarioBody).effects.filter Effect.isProviderCall =
      [.searchNearby (requestBodyOf scenarioLocation (radiusOf scenarioPreferences)
        (typesOf (scenarioWorld scenarioAnswer).rand scenarioPreferences
          (.queryResult 3)).1)] :=
  ⟨rfl, (C24_provider_calls (scenarioWorld scenarioAnswer) scenarioBody scenarioPreferences
    scenarioLocation scenarioVisited (.queryResult 3) rfl rfl rfl).1 rfl⟩

/-- C25: when the request body lacks preferences or lacks location, /pick answers 400
with the error 'Preferences and location required' and makes no call at all: no query on
the visit history, no cache lookup, no provider call, no cache write. -/
theorem C25_invalid_input_rejected (w : World) (body : Body)
    (hmissing : body.preferences = none ∨ body.location = none) :
    pick w body = ⟨some ⟨400, .error "Preferences and location required"⟩, []⟩ := by
  unfold pick
  rcases hmissing with h | h
  · rw [h]
  · rw [h]
    cases body.preferences <;> rfl

/-- C25 (witness): the request of the scenario without its location. -/
theorem C25_invalid_input_rejected_witness :
    (pick (scenarioWorld scenarioAnswer) ⟨some scenarioPreferences, none⟩).response =
      some ⟨400, .error "Preferences and location required"⟩ ∧
    (pick (scenarioWorld scenarioAnswer) ⟨some scenarioPreferences, none⟩).effects = [] := by
  rw [C25_invalid_input_rejected (scenarioWorld scenarioAnswer) ⟨some scenarioPreferences, none⟩
    (Or.inr rfl)]
  exact ⟨rfl, rfl⟩

/-- C26: with an empty list of explicit cuisines the ranked output is the non-visited
places in their input order followed by the visited places in their input order; the
comparator reads neither the default type-set chosen for the search nor, in this case,
the types of the places. -/
theorem C26_stable_partition (visitedNames : List String) (filtered : List Place) :
    sorted_places visitedNames [] filtered =
      filtered.filter (fun p => decide (placeName p ∉ visitedNames)) ++
        filtered.filter (fun p => decide (placeName p ∈ visitedNames)) := by
  have hpair : (sorted_places visitedNames [] filtered).Pairwise (fun a b =>
      ¬ (decide (placeName a ∉ visitedNames) = false ∧
         decide (placeName b ∉ visitedNames) = true)) :=
    (sorted_places_pairwise visitedNames [] filtered).imp (fun {a b} h => by simpa using h)
  have hsplit := eq_filter_append_of_pairwise
    (fun p => decide (placeName p ∉ visitedNames)) _ hpair
  have hnot : (fun p : Place => !decide (placeName p ∉ visitedNames)) =
      (fun p => decide (placeName p ∈ visitedNames)) := by
    funext p
    by_cases h : placeName p ∈ visitedNames <;> simp [h]
  rw [hnot] at hsplit
  have h1 : (sorted_places visitedNames [] filtered).filter
      (fun p => decide (placeName p ∉ visitedNames)) =
      filtered.filter (fun p => decide (placeName p ∉ visitedNames)) := by
    refine filter_arraySort _ _ (fun a b ha hb => ?_) filtered
    simp only [decide_eq_true_eq] at ha hb
    rw [comparator_no_cuisines visitedNames a b (by simp [ha, hb])]
  have h2 : (sorted_places visitedNames [] filtered).filter
      (fun p => decide (placeName p ∈ visitedNames)) =
      filtered.filter (fun p => decide (placeName p ∈ visitedNames)) := by
    refine filter_arraySort _ _ (fun a b ha hb => ?_) filtered
    simp only [decide_eq_true_eq] at ha hb
    rw [comparator_no_cuisines visitedNames a b (by simp [ha, hb])]
  rw [h1, h2] at hsplit
  exact hsplit

/-- C27 (the code departs from the claim): in binary64 arithmetic the call
getRandomIntInclusive(24, 46) with the draw 1 - 2^-52, a binary64 number of [0, 1),
returns 47, which is above max: the product r * 23 = 23 - 23 * 2^-52 is rounded to
23 - 2^-48, and the sum 47 - 2^-48, halfway between two binary64 numbers, is rounded to
47. On exact numbers the result is 46. -/
theorem C27_getRandomIntInclusive_overshoot :
    (0 ≤ Draw.greatest.val ∧ Draw.greatest.val < 1) ∧
    binary64 Draw.greatest.val = Draw.greatest.val ∧
    binary64 (Draw.greatest.val * ((46 - 24 + 1 : ℤ) : ℚ)) = 23 - 1 / 2 ^ 48 ∧
    binary64 ((23 - 1 / 2 ^ 48 : ℚ) + ((24 : ℤ) : ℚ)) = 47 ∧
    getRandomIntInclusiveWith binary64 Draw.greatest 24 46 = 47 ∧
    ¬ getRandomIntInclusiveWith binary64 Draw.greatest 24 46 ≤ 46 ∧
    getRandomIntInclusive Draw.greatest 24 46 = 46 ∧
    arrayAt TYPES 47 = none := by
  have h47 : getRandomIntInclusiveWith binary64 Draw.greatest 24 46 = 47 := by
    unfold getRandomIntInclusiveWith
    rw [binary64_greatest_product, binary64_greatest_sum]
    exact Int.floor_intCast 47
  refine ⟨⟨Draw.greatest.nonneg, Draw.greatest.lt_one⟩, binary64_greatest,
    binary64_greatest_product, binary64_greatest_sum, h47, by rw [h47]; norm_num, ?_, rfl⟩
  apply getRandomIntInclusive_eq <;> norm_num [Draw.greatest]

end PickMyBite
